import Mathlib

/-! # Lifecycle of the HTTP server controller (`server.go`)

A shallow embedding of package `server`:

* `New` builds the `Server` value (lines 21-29);
* `Start` (lines 31-65) runs two tasks, the controller (the caller's goroutine) and the
  serve task (the goroutine of lines 40-48).  They are embedded as a labelled transition
  system: a state holds one program counter per task together with the shared objects
  (the error channel, the combined cancellation context), an event names which task, or
  which part of the environment, moves next, and `Start.step` executes exactly one
  statement.  An execution of `Start` is a list of events, so a property of "every
  ordering" is a property of every event list.

The environment is `net/http` (when and with what `ListenAndServe` and `Shutdown` return),
the operating system (interrupts), the caller (cancellation of the parent context) and the
clock.  It is left unconstrained: every return value at every moment is allowed.  An event
that cannot happen in a state (a blocked task, a return from a call that is not running)
leaves the state unchanged, so every list of events is a schedule.

The log lines (36, 37) and the deferred `cancelShutDown` (line 58) do not touch the state
described here and are left out.  A panic of the serve task ends the process once the
deferred calls have run; the controller is still allowed to move afterwards, which covers
the steps it may take before the process is gone.
-/

namespace ServerPkg

/-! ## Go values -/

/-- Durations and instants, counted in nanoseconds as `time.Duration` does. -/
abbrev Duration := Nat

/-- The Go constant `time.Millisecond`. -/
def millisecond : Duration := 1000000

/-- The Go constant `time.Second`. -/
def second : Duration := 1000 * millisecond

/-- A non-nil Go `error`.  `wrap inner msg` is the value built by `errors.Wrap(inner, msg)`,
whose `Unwrap` gives `inner` back. -/
inductive GoError where
  | errServerClosed : GoError
  | deadlineExceeded : GoError
  | other (msg : String) : GoError
  | wrap (inner : GoError) (msg : String) : GoError
  deriving DecidableEq, Repr

/-- A Go `error` interface value; `none` is `nil`. -/
abbrev Err := Option GoError

/-- The test `errors.Is(err, http.ErrServerClosed)`: walk the `Unwrap` chain. -/
def GoError.isServerClosed : GoError → Bool
  | .errServerClosed => true
  | .deadlineExceeded => false
  | .other _ => false
  | .wrap inner _ => inner.isServerClosed

/-- Message of line 46. -/
def abnormalMsg : String := "http.Server shutdown abnormally"

/-- Message of line 61. -/
def gracelessMsg : String := "http.Server.Shutdown(): didn\x27t shutdown gracefully"

/-- Line 14: `const shutdownHammer = time.Second * 5`. -/
def shutdownHammer : Duration := second * 5

/-- An injected request handler, known only by its identity. -/
abbrev Handler := Nat

/-- The exported fields of `net/http.Server`.  A field of pointer, function, map or
interface type is `none` when it is `nil`, and otherwise an identity. -/
structure HttpServer where
  Addr : String
  Handler : Option Handler
  DisableGeneralOptionsHandler : Bool
  TLSConfig : Option Nat
  ReadTimeout : Duration
  ReadHeaderTimeout : Duration
  WriteTimeout : Duration
  IdleTimeout : Duration
  MaxHeaderBytes : Int
  TLSNextProto : Option Nat
  ConnState : Option Nat
  ErrorLog : Option Nat
  BaseContext : Option Nat
  ConnContext : Option Nat
  deriving DecidableEq, Repr

/-- The zero value of `net/http.Server`. -/
def HttpServer.zero : HttpServer where
  Addr := ""
  Handler := none
  DisableGeneralOptionsHandler := false
  TLSConfig := none
  ReadTimeout := 0
  ReadHeaderTimeout := 0
  WriteTimeout := 0
  IdleTimeout := 0
  MaxHeaderBytes := 0
  TLSNextProto := none
  ConnState := none
  ErrorLog := none
  BaseContext := none
  ConnContext := none

/-- Lines 16-19: `type Server struct { srv *http.Server }`. -/
structure Server where
  srv : HttpServer
  deriving DecidableEq, Repr

/-- Lines 21-29: `New` sets `Addr` and `ReadHeaderTimeout` in a composite literal, which
leaves every other field at its zero value. -/
def New (addr : String) : Server :=
  { srv := { HttpServer.zero with Addr := addr, ReadHeaderTimeout := 60 * second } }

/-! ## Channels -/

/-- A buffered Go channel of errors: the queued values, the capacity, the closed flag. -/
structure Chan where
  buf : List GoError
  cap : Nat
  closed : Bool
  deriving DecidableEq, Repr

/-- The expression `make(chan error, n)`. -/
def Chan.make (n : Nat) : Chan := { buf := [], cap := n, closed := false }

/-- Outcome of a send statement `c <- v`. -/
inductive SendResult where
  | sent (c : Chan)
  | wouldBlock
  | panicClosed
  deriving DecidableEq, Repr

/-- A send `c <- v`: panics on a closed channel, blocks on a full buffer (no receiver is
ever parked on the error channel, whose only receive is the non-blocking one of line 52),
and otherwise queues the value. -/
def Chan.send (c : Chan) (v : GoError) : SendResult :=
  if c.closed then .panicClosed
  else if c.buf.length < c.cap then .sent { c with buf := c.buf ++ [v] }
  else .wouldBlock

/-- The statement `close(c)`: `none` is the run-time panic "close of closed channel". -/
def Chan.close (c : Chan) : Option Chan :=
  if c.closed then none else some { c with closed := true }

/-- What the `select` of lines 51-55 finds on the channel. -/
inductive PollObs where
  | value (e : GoError)
  | closedEmpty
  | notReady
  deriving DecidableEq, Repr

/-- A receive under `select` with a `default` branch: a queued value is delivered first,
a closed and drained channel is ready too, anything else falls to `default`. -/
def Chan.poll (c : Chan) : PollObs × Chan :=
  match c.buf with
  | v :: rest => (.value v, { c with buf := rest })
  | [] => if c.closed then (.closedEmpty, c) else (.notReady, c)

/-- The value a receive expression `<-c` evaluates to when the case is ready: the queued
value, or the zero value `nil` on a closed channel. -/
def PollObs.received : PollObs → Option Err
  | .value e => some (some e)
  | .closedEmpty => some none
  | .notReady => none

/-! ## Contexts -/

/-- The contexts that `Start` handles. `caller` is the `ctx` argument; `interrupts p` is
`shutdown.CaptureInterrupts(p)`, of the external package `github.com/jtwatson/shutdown`,
which by its contract is done when `p` is done, when an interrupt or termination signal
arrives, or when the cancel function returned with it is called; `withTimeout p d` is a
child of `p` that expires at instant `d`. -/
inductive Context where
  | background : Context
  | caller : Context
  | interrupts (parent : Context) : Context
  | withTimeout (parent : Context) (deadline : Nat) : Context
  deriving DecidableEq, Repr

/-- What the outside world has done to the contexts: the deadline of the caller's context
(if it has one), whether the caller has cancelled it, whether an interrupt was delivered,
and whether the cancel function returned by `CaptureInterrupts` was called. -/
structure Signals where
  callerDeadline : Option Nat
  callerCancelled : Bool
  interrupted : Bool
  released : Bool
  deriving DecidableEq, Repr

/-- Whether `Done()` of a context is closed at instant `now`. -/
def Context.done (g : Signals) (now : Nat) : Context → Bool
  | .background => false
  | .caller =>
    g.callerCancelled ||
      (match g.callerDeadline with
       | some d => decide (d ≤ now)
       | none => false)
  | .interrupts p => p.done g now || g.interrupted || g.released
  | .withTimeout p d => p.done g now || decide (d ≤ now)

/-- The deadline a context carries, if any (`Deadline()`): the earliest one on the way up to
the root. -/
def Context.deadline (callerDeadline : Option Nat) : Context → Option Nat
  | .background => none
  | .caller => callerDeadline
  | .interrupts p => p.deadline callerDeadline
  | .withTimeout p d =>
    match p.deadline callerDeadline with
    | some d0 => some (min d0 d)
    | none => some d

/-! ## The two tasks of `Start` -/

/-- Program counter of the controller, the goroutine that called `Start`. -/
inductive CtrlPC where
  /-- Line 34: about to call `shutdown.CaptureInterrupts(ctx)`. -/
  | capture
  /-- Lines 36-39: the log lines, then `errChan := make(chan error, 1)`. -/
  | makeChan
  /-- Line 40: the `go` statement. -/
  | spawn
  /-- Line 50: blocked in `<-ctx.Done()`. -/
  | awaitDone
  /-- Lines 51-55: the `select` on `errChan` with a `default` branch. -/
  | poll
  /-- Lines 57-60: `context.WithTimeout(context.Background(), shutdownHammer)` and the call
  of `s.srv.Shutdown(ctxShutDown)`; the clock is read once, at this instant. -/
  | drain
  /-- Line 60: inside `Shutdown`, which has not returned yet. -/
  | inShutdown
  /-- Lines 60-64: `Shutdown` has returned `r`; the `if err != nil` is next. -/
  | afterShutdown (r : Err)
  /-- The call of `Start` has returned. -/
  | returned
  deriving DecidableEq, Repr

/-- Program counter of the serve task, the goroutine of lines 40-48. -/
inductive ServePC where
  /-- The `go` statement has not run yet. -/
  | notStarted
  /-- Line 44: `s.srv.Handler = handler`. -/
  | setHandler
  /-- Line 45: about to call `s.srv.ListenAndServe()`. -/
  | callListen
  /-- Line 45: inside `ListenAndServe`. -/
  | serving
  /-- Line 45: `ListenAndServe` has returned `r`; the condition of the `if` is next. -/
  | check (r : Err)
  /-- Line 46: the send `errChan <- e`. -/
  | send (e : GoError)
  /-- Line 42, run at exit or while panicking: `close(errChan)`. -/
  | deferClose
  /-- Line 41, run after line 42: `cancel()`. -/
  | deferCancel
  /-- The goroutine function has returned. -/
  | exited
  /-- The goroutine has run its deferred calls and dies of a panic. -/
  | panicked
  deriving DecidableEq, Repr

/-- Who moves next. -/
inductive Event where
  /-- The controller executes its next statement. -/
  | ctrl
  /-- The serve task executes its next statement. -/
  | serve
  /-- The process receives an interrupt or termination signal. -/
  | interrupt
  /-- The caller cancels the context it passed to `Start`. -/
  | parentCancel
  /-- The call `ListenAndServe()` returns `r`. -/
  | listenReturn (r : Err)
  /-- The call `ListenAndServe()` panics. -/
  | listenPanic
  /-- The call `Shutdown(ctxShutDown)` returns `r`. -/
  | shutdownReturn (r : Err)
  /-- The clock advances by `d` nanoseconds. -/
  | tick (d : Nat)
  deriving DecidableEq, Repr

/-- One invocation of `Start`: the program counters, the variables of `Start`, the
environment, and a record of what has happened so far.  The fields after `result` are
history: `step` writes them and, but for `releases`, never reads them back (a call of
`cancel` is what fires the combined context, so `ctxDone` looks at `releases`). -/
structure State where
  /-- The clock. -/
  now : Nat
  ctrl : CtrlPC
  serve : ServePC
  /-- The server `s.srv`. -/
  srv : HttpServer
  /-- The `handler` argument. -/
  handler : Handler
  /-- The variable `ctx`: the argument until line 34, the combined context afterwards. -/
  ctx : Context
  /-- The variable `errChan` (a channel without capacity stands for "not made yet"). -/
  errChan : Chan
  /-- The variable `ctxShutDown`. -/
  ctxShutDown : Option Context
  /-- The deadline of the context the caller passed in, if it has one. -/
  callerDeadline : Option Nat
  /-- The caller has cancelled the context it passed in. -/
  parentDone : Bool
  /-- An interrupt has been delivered. -/
  interrupted : Bool
  /-- A deferred call of the serve task runs because of a panic. -/
  panicking : Bool
  /-- The value `Start` returned, once it has. -/
  result : Option Err
  /-- Number of calls of `CaptureInterrupts`. -/
  acquisitions : Nat
  /-- Number of calls of the `cancel` function it returned. -/
  releases : Nat
  /-- The values sent on `errChan`, oldest first. -/
  sent : List GoError
  /-- Number of executed `close(errChan)`. -/
  closes : Nat
  /-- A send or a close hit a closed channel. -/
  chanPanic : Bool
  /-- What `ListenAndServe` returned, once it has. -/
  listenRet : Option Err
  /-- What the `select` of line 51 found, once it has run. -/
  polled : Option PollObs
  /-- The controller left line 50 when neither an interrupt nor the end of the caller's
  context had happened. -/
  wokenByExit : Bool
  /-- Number of calls of `Shutdown`. -/
  shutdownCalls : Nat
  /-- The instant at which the drain began (lines 57-60). -/
  drainBegan : Option Nat
  /-- What `Shutdown` returned, once it has. -/
  shutdownRet : Option Err
  deriving DecidableEq, Repr

/-- The state in which `Start(ctx, handler)` is entered on server `s`, where `ctx` has the
deadline `dl` (or none). -/
def Start.init (s : Server) (handler : Handler) (dl : Option Nat) : State where
  callerDeadline := dl
  now := 0
  ctrl := .capture
  serve := .notStarted
  srv := s.srv
  handler := handler
  ctx := .caller
  errChan := Chan.make 0
  ctxShutDown := none
  parentDone := false
  interrupted := false
  panicking := false
  result := none
  acquisitions := 0
  releases := 0
  sent := []
  closes := 0
  chanPanic := false
  listenRet := none
  polled := none
  wokenByExit := false
  shutdownCalls := 0
  drainBegan := none
  shutdownRet := none

/-- What has happened to the contexts in a state. -/
def State.signals (s : State) : Signals where
  callerDeadline := s.callerDeadline
  callerCancelled := s.parentDone
  interrupted := s.interrupted
  released := decide (0 < s.releases)

/-- Whether `ctx.Done()` is closed in a state. -/
def State.ctxDone (s : State) : Bool := s.ctx.done s.signals s.now

/-- Whether something other than the serve task has fired the combined context: an
interrupt, or the end of the caller's context. -/
def State.externalStop (s : State) : Bool :=
  Context.caller.done s.signals s.now || s.interrupted

/-- The controller executes one statement of `Start`; `none` when it is blocked or has
returned. -/
def Start.ctrlStep (s : State) : Option State :=
  match s.ctrl with
  | .capture =>
    some { s with ctrl := .makeChan, ctx := .interrupts s.ctx,
                  acquisitions := s.acquisitions + 1 }
  | .makeChan => some { s with ctrl := .spawn, errChan := Chan.make 1 }
  | .spawn => some { s with ctrl := .awaitDone, serve := .setHandler }
  | .awaitDone =>
    if s.ctxDone then
      some { s with ctrl := .poll, wokenByExit := !s.externalStop }
    else none
  | .poll =>
    match s.errChan.poll with
    | (obs, c) =>
      match obs.received with
      | some err =>
        some { s with ctrl := .returned, errChan := c, polled := some obs,
                      result := some err }
      | none => some { s with ctrl := .drain, errChan := c, polled := some obs }
  | .drain =>
    some { s with ctrl := .inShutdown,
                  ctxShutDown := some (.withTimeout .background (s.now + shutdownHammer)),
                  drainBegan := some s.now,
                  shutdownCalls := s.shutdownCalls + 1 }
  | .inShutdown => none
  | .afterShutdown r =>
    match r with
    | some err =>
      some { s with ctrl := .returned, result := some (some (.wrap err gracelessMsg)) }
    | none => some { s with ctrl := .returned, result := some none }
  | .returned => none

/-- The serve task executes one statement; `none` when it is blocked, not started or
finished. -/
def Start.serveStep (s : State) : Option State :=
  match s.serve with
  | .notStarted => none
  | .setHandler =>
    some { s with serve := .callListen, srv := { s.srv with Handler := some s.handler } }
  | .callListen => some { s with serve := .serving }
  | .serving => none
  | .check r =>
    match r with
    | some err =>
      if !err.isServerClosed then some { s with serve := .send (.wrap err abnormalMsg) }
      else some { s with serve := .deferClose }
    | none => some { s with serve := .deferClose }
  | .send e =>
    match s.errChan.send e with
    | .sent c => some { s with serve := .deferClose, errChan := c, sent := s.sent ++ [e] }
    | .wouldBlock => none
    | .panicClosed => some { s with serve := .deferClose, panicking := true, chanPanic := true }
  | .deferClose =>
    match s.errChan.close with
    | some c => some { s with serve := .deferCancel, errChan := c, closes := s.closes + 1 }
    | none => some { s with serve := .deferCancel, panicking := true, chanPanic := true }
  | .deferCancel =>
    some { s with serve := if s.panicking then .panicked else .exited,
                  releases := s.releases + 1 }
  | .exited => none
  | .panicked => none

/-- One transition of an invocation of `Start`; `none` when the event cannot happen in
the state. -/
def Start.step (e : Event) (s : State) : Option State :=
  match e with
  | .ctrl => Start.ctrlStep s
  | .serve => Start.serveStep s
  | .interrupt => some { s with interrupted := true }
  | .parentCancel => some { s with parentDone := true }
  | .listenReturn r =>
    match s.serve with
    | .serving => some { s with serve := .check r, listenRet := some r }
    | _ => none
  | .listenPanic =>
    match s.serve with
    | .serving => some { s with serve := .deferClose, panicking := true }
    | _ => none
  | .shutdownReturn r =>
    match s.ctrl with
    | .inShutdown => some { s with ctrl := .afterShutdown r, shutdownRet := some r }
    | _ => none
  | .tick d => some { s with now := s.now + d }

/-- An event that cannot happen leaves the state as it is. -/
def Start.next (s : State) (e : Event) : State := (Start.step e s).getD s

/-- The state after a schedule, a list of events, oldest first. -/
def Start.exec (s : State) (es : List Event) : State := es.foldl Start.next s

/-- The state that the schedule `es` leads to from the entry of `Start`. -/
def Start.run (srv : Server) (handler : Handler) (dl : Option Nat) (es : List Event) :
    State :=
  Start.exec (Start.init srv handler dl) es

/-! ## Vocabulary of the specification -/

/-- How far the controller has come in `Start`. -/
def CtrlPC.stage : CtrlPC → Nat
  | .capture => 0
  | .makeChan => 1
  | .spawn => 2
  | .awaitDone => 3
  | .poll => 4
  | .drain => 5
  | .inShutdown => 6
  | .afterShutdown _ => 7
  | .returned => 8

/-- How far the serve task has come. -/
def ServePC.stage : ServePC → Nat
  | .notStarted => 0
  | .setHandler => 1
  | .callListen => 2
  | .serving => 3
  | .check _ => 4
  | .send _ => 5
  | .deferClose => 6
  | .deferCancel => 7
  | .exited => 8
  | .panicked => 8

/-- The serve task has left its function, by return or by panic. -/
def ServePC.finished (p : ServePC) : Bool := decide (p.stage = 8)

/-- The specification's rule for what the serve task reports: a `ListenAndServe` error
that is not the expected closure, wrapped; nothing otherwise. -/
def specReport (listenRet : Option Err) : List GoError :=
  match listenRet with
  | some (some e) => if e.isServerClosed then [] else [.wrap e abnormalMsg]
  | _ => []

/-- The specification's rule for the terminal outcome, as a function of what the poll
observed and what `Shutdown` returned: an error found by the poll wins, a channel found
closed and empty is a clean stop, and otherwise the drain decides. -/
def specOutcome (polled : PollObs) (shutdownRet : Option Err) : Err :=
  match polled with
  | .value e => some e
  | .closedEmpty => none
  | .notReady =>
    match shutdownRet with
    | some (some e) => some (.wrap e gracelessMsg)
    | _ => none

/-- The three kinds of terminal outcome of the specification, and `unclassified` for an
error value of no such kind. -/
inductive Category where
  | clean
  | listenerFault
  | drainError
  | unclassified
  deriving DecidableEq, Repr

/-- The kind of a value returned by `Start`, read off the outermost wrapping. -/
def category : Err → Category
  | none => .clean
  | some (.wrap _ msg) =>
    if msg = abnormalMsg then .listenerFault
    else if msg = gracelessMsg then .drainError
    else .unclassified
  | some _ => .unclassified

/-- Number of calls of `CaptureInterrupts` over a sequence of invocations. -/
def totalAcquisitions (runs : List State) : Nat := (runs.map State.acquisitions).sum

/-- Number of calls of a cancel function over a sequence of invocations. -/
def totalReleases (runs : List State) : Nat := (runs.map State.releases).sum

/-! ## The scenario of `TestServer_Start` -/

/-- Contract of `Shutdown(ctx)` of `net/http` while one request is in flight that completes
at instant `doneAt`: it returns `nil` as soon as no request is in flight, unless the context
expires first, in which case it returns the error of the context.  The result is the
instant of the return and the value returned. -/
def httpShutdown (ctx : Context) (calledAt doneAt : Nat) : Nat × Err :=
  match ctx.deadline none with
  | some d =>
    if doneAt < d then (max calledAt doneAt, none)
    else (max calledAt d, some .deadlineExceeded)
  | none => (max calledAt doneAt, none)

/-- The server of `TestServer_Start` (lines 81-86 of the test). -/
def testServer : Server :=
  { srv := { HttpServer.zero with
      Addr := "localhost:23461", ReadHeaderTimeout := 60 * second } }

/-- The test `TestServer_Start` up to the call of `Shutdown`: `Start` runs and serves, the
second request is in the handler, the test sends SIGINT (line 136), the controller wakes,
polls and begins to drain.  Line 92 of the test calls `s.Start(handler)` without the
context argument that line 32 of `server.go` declares; the scenario is run with a
caller's context that has no deadline and is never cancelled. -/
def testUntilDrain : List Event :=
  [.ctrl, .ctrl, .ctrl, .serve, .serve, .tick (20 * millisecond), .interrupt,
   .ctrl, .ctrl, .ctrl]

/-- The test `TestServer_Start` with a handler that sleeps `responseDelay` (line 76): after
the call of `Shutdown` the listener closes, the serve task runs to its end, and
`Shutdown` returns when and what `httpShutdown` says. -/
def testServerStart (responseDelay : Duration) : State :=
  let s := Start.run testServer 1 none testUntilDrain
  let out := httpShutdown (s.ctxShutDown.getD .background) s.now (s.now + responseDelay)
  Start.exec s [.listenReturn (some .errServerClosed), .serve, .serve, .serve,
    .tick (out.1 - s.now), .shutdownReturn out.2, .ctrl]

/-! ## Schedules used as examples -/

/-- The address is in use: `ListenAndServe` fails to bind, the serve task sends the error,
closes the channel and cancels, and the controller wakes from line 50. -/
def bindFailure : List Event :=
  [.ctrl, .ctrl, .ctrl, .serve, .serve,
   .listenReturn (some (.other "listen tcp 127.0.0.1:23461: bind: address already in use")),
   .serve, .serve, .serve, .serve, .ctrl]

/-- The error that the serve task sends in `bindFailure` and in `lateFault`. -/
def wrappedBindError : GoError :=
  .wrap (.other "listen tcp 127.0.0.1:23461: bind: address already in use") abnormalMsg

/-- A listener fault that loses the race with the poll: the caller's context is already
cancelled, the controller wakes and polls before the serve task has run, then
`ListenAndServe` fails to bind and the serve task sends the error, and `Shutdown`, with
nothing to drain, returns `nil`. -/
def lateFault : List Event :=
  [.parentCancel, .ctrl, .ctrl, .ctrl, .ctrl, .ctrl, .serve, .serve,
   .listenReturn (some (.other "listen tcp 127.0.0.1:23461: bind: address already in use")),
   .serve, .serve, .ctrl, .shutdownReturn none, .ctrl]

/-- The part of `lateFault` that brings the controller to the `select` of lines 51-55. -/
def lateFaultUntilPoll : List Event := [.parentCancel, .ctrl, .ctrl, .ctrl, .ctrl]

/-- The part of `lateFault` that follows the controller's step at the `select`. -/
def lateFaultAfterPoll : List Event :=
  [.serve, .serve,
   .listenReturn (some (.other "listen tcp 127.0.0.1:23461: bind: address already in use")),
   .serve, .serve, .ctrl, .shutdownReturn none, .ctrl]

/-- An interrupt stops a serving server: `Shutdown` closes the listener, `ListenAndServe`
returns `ErrServerClosed`, and `Shutdown` returns `nil` and `Start` returns before the serve
task has run its deferred calls. -/
def earlyReturn : List Event :=
  [.ctrl, .ctrl, .ctrl, .serve, .serve, .interrupt, .ctrl, .ctrl, .ctrl,
   .listenReturn (some .errServerClosed), .shutdownReturn none, .ctrl]

/-- The continuation of `earlyReturn` in which the serve task runs to its end. -/
def serveWindDown : List Event := [.serve, .serve, .serve]

/-- The server stops by itself, with neither interrupt nor cancellation: `ListenAndServe`
returns `ErrServerClosed`, the serve task closes the channel and cancels, and only then
does the controller wake. -/
def selfExit : List Event :=
  [.ctrl, .ctrl, .ctrl, .serve, .serve, .listenReturn (some .errServerClosed),
   .serve, .serve, .serve, .ctrl]

/-- A panic of `ListenAndServe` while serving, with no interrupt. -/
def servePanic : List Event :=
  [.ctrl, .ctrl, .ctrl, .serve, .serve, .listenPanic, .serve, .serve]

/-- One construct/start/stop cycle: the server, the arguments of `Start`, and the schedule
of the invocation. -/
structure Cycle where
  srv : Server
  handler : Handler
  deadline : Option Nat
  schedule : List Event

/-- The state in which a cycle ends. -/
def Cycle.final (c : Cycle) : State := Start.run c.srv c.handler c.deadline c.schedule

/-- Two cycles one after the other: a stop by interrupt, then a failure to bind. -/
def twoCycles : List Cycle :=
  [{ srv := New ":8080", handler := 1, deadline := none,
     schedule := earlyReturn ++ serveWindDown },
   { srv := New ":8080", handler := 2, deadline := none,
     schedule := bindFailure ++ [.ctrl] }]

/-- The value `want` of `TestNew` (lines 29-34 of the test), every field written out. -/
def testNewWant : Server where
  srv :=
    { Addr := "myhost:2000"
      Handler := none
      DisableGeneralOptionsHandler := false
      TLSConfig := none
      ReadTimeout := 0
      ReadHeaderTimeout := 60000000000
      WriteTimeout := 0
      IdleTimeout := 0
      MaxHeaderBytes := 0
      TLSNextProto := none
      ConnState := none
      ErrorLog := none
      BaseContext := none
      ConnContext := none }

/-- An interrupt arrives a minute into serving, under a caller's context whose deadline
is 61 seconds; the controller wakes, polls and begins to drain. -/
def interruptAfterAMinute : List Event :=
  [.ctrl, .ctrl, .ctrl, .serve, .serve, .tick (60 * second), .interrupt,
   .ctrl, .ctrl, .ctrl]

/-! ## The invariant of `Start` -/

/-- What holds in every state that an invocation of `Start` can reach. -/
structure Start.Inv (s : State) : Prop where
  ctx0 : s.ctrl.stage = 0 → s.ctx = .caller
  ctx1 : 1 ≤ s.ctrl.stage → s.ctx = .interrupts .caller
  acq0 : s.ctrl.stage = 0 → s.acquisitions = 0
  acq1 : 1 ≤ s.ctrl.stage → s.acquisitions = 1
  cap1 : 2 ≤ s.ctrl.stage → s.errChan.cap = 1
  started : 1 ≤ s.serve.stage → 3 ≤ s.ctrl.stage
  idle : s.ctrl.stage ≤ 2 → s.serve = .notStarted
  noPanic : s.chanPanic = false
  open6 : s.serve.stage ≤ 6 → s.errChan.closed = false ∧ s.closes = 0
  closed7 : 7 ≤ s.serve.stage → s.errChan.closed = true ∧ s.closes = 1
  rel7 : s.serve.stage ≤ 7 → s.releases = 0
  rel8 : s.serve.stage = 8 → s.releases = 1
  sent5 : s.serve.stage ≤ 5 → s.sent = []
  sent6 : 6 ≤ s.serve.stage → s.sent = specReport s.listenRet
  listen3 : s.serve.stage ≤ 3 → s.listenRet = none
  checking : ∀ r, s.serve = .check r → s.listenRet = some r
  sending : ∀ e, s.serve = .send e → [e] = specReport s.listenRet
  bufNone : s.polled = none → s.errChan.buf = s.sent
  bufNotReady : s.polled = some .notReady → s.errChan.buf = s.sent
  bufValue : ∀ e, s.polled = some (.value e) → s.sent = [e] ∧ s.errChan.buf = []
  bufClosed : s.polled = some .closedEmpty →
    s.sent = [] ∧ s.errChan.buf = [] ∧ s.errChan.closed = true
  polled4 : s.ctrl.stage ≤ 4 → s.polled = none
  polled5 : 5 ≤ s.ctrl.stage → s.ctrl.stage ≤ 7 → s.polled = some .notReady
  polled8 : s.ctrl.stage = 8 → s.polled ≠ none
  drain5 : s.ctrl.stage ≤ 5 →
    s.shutdownCalls = 0 ∧ s.drainBegan = none ∧ s.ctxShutDown = none
  drain6 : 6 ≤ s.ctrl.stage → s.polled = some .notReady →
    s.shutdownCalls = 1 ∧ ∃ t, t ≤ s.now ∧ s.drainBegan = some t ∧
      s.ctxShutDown = some (.withTimeout .background (t + shutdownHammer))
  drainSkip : s.polled ≠ none → s.polled ≠ some .notReady →
    s.shutdownCalls = 0 ∧ s.drainBegan = none ∧ s.ctxShutDown = none ∧ s.shutdownRet = none
  ret6 : s.ctrl.stage ≤ 6 → s.shutdownRet = none
  ret7 : ∀ r, s.ctrl = .afterShutdown r → s.shutdownRet = some r
  ret8 : s.ctrl.stage = 8 → s.polled = some .notReady → s.shutdownRet ≠ none
  result7 : s.ctrl.stage ≤ 7 → s.result = none
  result8 : s.ctrl.stage = 8 →
    ∃ obs, s.polled = some obs ∧ s.result = some (specOutcome obs s.shutdownRet)
  woken3 : s.ctrl.stage ≤ 3 → s.wokenByExit = false
  woken : s.wokenByExit = true → s.serve.stage = 8 ∧ s.polled ≠ some .notReady

/-- The invariant holds when `Start` is entered. -/
theorem Start.inv_init (srv : Server) (h : Handler) (dl : Option Nat) :
    Start.Inv (Start.init srv h dl) := by
  constructor <;> simp [Start.init, CtrlPC.stage, ServePC.stage, Chan.make, specReport]

/-- The serve task reports at most one error. -/
theorem specReport_length (r : Option Err) : (specReport r).length ≤ 1 := by
  unfold specReport
  split
  · split <;> simp
  · simp

/-- The serve task has nine stages. -/
theorem servePC_stage_le (p : ServePC) : p.stage ≤ 8 := by
  cases p <;> simp [ServePC.stage]

/-- The controller has nine stages. -/
theorem ctrlPC_stage_le (p : CtrlPC) : p.stage ≤ 8 := by
  cases p <;> simp [CtrlPC.stage]

set_option maxHeartbeats 0 in
/-- A step of the controller keeps the invariant. -/
theorem Start.inv_ctrlStep (s t : State) (h : Start.Inv s) (hs : Start.ctrlStep s = some t) :
    Start.Inv t := by
  have hfields := h
  cases hfields
  obtain ⟨now, ctrl, serve, srv, handler, ctx, errChan, ctxShutDown, callerDeadline,
    parentDone, interrupted, panicking, result, acquisitions, releases, sent, closes,
    chanPanic, listenRet, polled, wokenByExit, shutdownCalls, drainBegan, shutdownRet⟩ := s
  unfold Start.ctrlStep at hs
  dsimp only at *
  cases ctrl with
  | capture =>
    simp only [Option.some.injEq] at hs; subst hs
    constructor <;> dsimp only <;>
      first
      | assumption
      | (simp [CtrlPC.stage] at * <;> simp_all [CtrlPC.stage])
  | makeChan =>
    simp only [Option.some.injEq] at hs; subst hs
    constructor <;> dsimp only <;>
      first
      | assumption
      | (simp [CtrlPC.stage] at * <;> simp [CtrlPC.stage, Chan.make, ServePC.stage, *])
  | spawn =>
    simp only [Option.some.injEq] at hs; subst hs
    constructor <;> dsimp only <;>
      first
      | assumption
      | (simp [CtrlPC.stage] at * <;> simp [CtrlPC.stage, ServePC.stage, *])
  | awaitDone =>
    simp only [Option.ite_none_right_eq_some, Option.some.injEq] at hs
    obtain ⟨hd, hs⟩ := hs
    subst hs
    have hwoken : !State.externalStop
        ⟨now, .awaitDone, serve, srv, handler, ctx, errChan, ctxShutDown, callerDeadline,
          parentDone, interrupted, panicking, result, acquisitions, releases, sent, closes,
          chanPanic, listenRet, polled, wokenByExit, shutdownCalls, drainBegan,
          shutdownRet⟩ = true → serve.stage = 8 := by
      intro hw
      have hctx := h.ctx1 (by simp [CtrlPC.stage])
      dsimp only at hctx
      subst hctx
      by_contra h8
      have hrel := h.rel7 (by have := servePC_stage_le serve; dsimp only; omega)
      dsimp only at hrel
      subst hrel
      simp [State.ctxDone, State.externalStop, State.signals, Context.done] at hd hw
      simp [hw] at hd
    have hpolled := h.polled4 (by simp [CtrlPC.stage])
    dsimp only at hpolled
    constructor <;> dsimp only <;>
      first
      | assumption
      | (simp [CtrlPC.stage] at * <;> simp_all [CtrlPC.stage])
  | poll =>
    unfold Chan.poll at hs
    rcases errChan with ⟨buf, cap, closed⟩
    dsimp only at *
    cases buf with
    | nil =>
      cases closed with
      | false =>
        simp [PollObs.received] at hs; subst hs
        have hw : wokenByExit = false := by
          by_contra hw
          have h8 := (h.woken (by simpa using hw)).1
          have hc := (h.closed7 (by dsimp only at h8 ⊢; omega)).1
          simp at hc
        constructor <;> dsimp only <;>
          first
          | assumption
          | (simp [CtrlPC.stage] at * <;> simp_all [CtrlPC.stage])
      | true =>
        simp [PollObs.received] at hs; subst hs
        constructor <;> dsimp only <;>
          first
          | assumption
          | (simp [CtrlPC.stage] at * <;> simp_all [CtrlPC.stage, specOutcome])
    | cons v rest =>
      simp [PollObs.received] at hs; subst hs
      have hb : v :: rest = sent := h.bufNone (h.polled4 (by simp [CtrlPC.stage]))
      have hlen : sent.length ≤ 1 := by
        rcases Nat.lt_or_ge serve.stage 6 with h5 | h6
        · have h0 := h.sent5 (by dsimp only; omega)
          dsimp only at h0
          rw [h0]; simp
        · have h1 := h.sent6 h6
          dsimp only at h1
          rw [h1]; exact specReport_length _
      have hsent : sent = [v] ∧ rest = [] := by
        subst hb
        cases rest with
        | nil => simp
        | cons w l => simp at hlen
      constructor <;> dsimp only <;>
        first
        | assumption
        | (simp [CtrlPC.stage] at * <;> simp_all [CtrlPC.stage, specOutcome])
  | drain =>
    simp only [Option.some.injEq] at hs; subst hs
    constructor <;> dsimp only <;>
      first
      | assumption
      | (simp [CtrlPC.stage] at * <;> simp [CtrlPC.stage, *])
  | inShutdown => simp at hs
  | afterShutdown r =>
    cases r <;>
    · simp only [Option.some.injEq] at hs; subst hs
      constructor <;> dsimp only <;>
        first
        | assumption
        | (simp [CtrlPC.stage] at * <;> simp [CtrlPC.stage, specOutcome, *])
  | returned => simp at hs

set_option maxHeartbeats 0 in
/-- A step of the serve task keeps the invariant. -/
theorem Start.inv_serveStep (s t : State) (h : Start.Inv s)
    (hs : Start.serveStep s = some t) : Start.Inv t := by
  have hfields := h
  cases hfields
  obtain ⟨now, ctrl, serve, srv, handler, ctx, errChan, ctxShutDown, callerDeadline,
    parentDone, interrupted, panicking, result, acquisitions, releases, sent, closes,
    chanPanic, listenRet, polled, wokenByExit, shutdownCalls, drainBegan, shutdownRet⟩ := s
  unfold Start.serveStep at hs
  dsimp only at *
  cases serve with
  | notStarted => simp at hs
  | setHandler =>
    simp only [Option.some.injEq] at hs; subst hs
    constructor <;> dsimp only <;>
      first
      | assumption
      | (simp [ServePC.stage] at * <;> simp [ServePC.stage, *])
  | callListen =>
    simp only [Option.some.injEq] at hs; subst hs
    constructor <;> dsimp only <;>
      first
      | assumption
      | (simp [ServePC.stage] at * <;> simp [ServePC.stage, *])
  | serving => simp at hs
  | check r =>
    cases r with
    | none =>
      simp only [Option.some.injEq] at hs; subst hs
      constructor <;> dsimp only <;>
        first
        | assumption
        | (simp [ServePC.stage] at * <;> simp [ServePC.stage, specReport, *])
    | some err =>
      cases hcl : err.isServerClosed <;>
      · simp [hcl] at hs; subst hs
        constructor <;> dsimp only <;>
          first
          | assumption
          | (simp [ServePC.stage] at * <;> simp [ServePC.stage, specReport, *])
  | send e =>
    rcases errChan with ⟨buf, cap, closed⟩
    have hopen : closed = false := (h.open6 (by simp [ServePC.stage])).1
    have hsent : sent = [] := h.sent5 (by simp [ServePC.stage])
    have hcap : cap = 1 :=
      h.cap1 (le_trans (by norm_num) (h.started (by simp [ServePC.stage])))
    have hbuf : buf = [] := by
      cases polled with
      | none => simp_all
      | some obs => cases obs <;> simp_all
    subst hopen hsent hcap hbuf
    simp [Chan.send] at hs; subst hs
    constructor <;> dsimp only <;>
      first
      | assumption
      | (simp [ServePC.stage] at * <;> simp [ServePC.stage, *])
  | deferClose =>
    rcases errChan with ⟨buf, cap, closed⟩
    have hopen : closed = false := (h.open6 (by simp [ServePC.stage])).1
    subst hopen
    simp [Chan.close] at hs; subst hs
    constructor <;> dsimp only <;>
      first
      | assumption
      | (simp [ServePC.stage] at * <;> simp [ServePC.stage, *])
  | deferCancel =>
    simp only [Option.some.injEq] at hs; subst hs
    cases panicking <;>
    · constructor <;> dsimp only <;>
        first
        | assumption
        | (simp [ServePC.stage] at * <;> simp [ServePC.stage, *])
  | exited => simp at hs
  | panicked => simp at hs

set_option maxHeartbeats 0 in
/-- Every transition keeps the invariant. -/
theorem Start.inv_step (e : Event) (s t : State) (h : Start.Inv s)
    (hs : Start.step e s = some t) : Start.Inv t := by
  cases e with
  | ctrl => exact Start.inv_ctrlStep s t h hs
  | serve => exact Start.inv_serveStep s t h hs
  | interrupt =>
    simp only [Start.step, Option.some.injEq] at hs; subst hs
    cases h; constructor <;> assumption
  | parentCancel =>
    simp only [Start.step, Option.some.injEq] at hs; subst hs
    cases h; constructor <;> assumption
  | tick d =>
    simp only [Start.step, Option.some.injEq] at hs; subst hs
    have h6 := h.drain6
    cases h; constructor <;> dsimp only <;> try assumption
    intro a b
    obtain ⟨hc, t, ht, hrest⟩ := h6 a b
    exact ⟨hc, t, by omega, hrest⟩
  | listenReturn r =>
    have hfields := h
    cases hfields
    obtain ⟨now, ctrl, serve, srv, handler, ctx, errChan, ctxShutDown, callerDeadline,
      parentDone, interrupted, panicking, result, acquisitions, releases, sent, closes,
      chanPanic, listenRet, polled, wokenByExit, shutdownCalls, drainBegan, shutdownRet⟩ := s
    cases serve <;> simp [Start.step] at hs
    subst hs
    constructor <;> dsimp only <;>
      first
      | assumption
      | (simp [ServePC.stage] at * <;> simp [ServePC.stage, specReport, *])
  | listenPanic =>
    have hfields := h
    cases hfields
    obtain ⟨now, ctrl, serve, srv, handler, ctx, errChan, ctxShutDown, callerDeadline,
      parentDone, interrupted, panicking, result, acquisitions, releases, sent, closes,
      chanPanic, listenRet, polled, wokenByExit, shutdownCalls, drainBegan, shutdownRet⟩ := s
    cases serve <;> simp [Start.step] at hs
    subst hs
    constructor <;> dsimp only <;>
      first
      | assumption
      | (simp [ServePC.stage] at * <;> simp [ServePC.stage, specReport, *])
  | shutdownReturn r =>
    have hfields := h
    cases hfields
    obtain ⟨now, ctrl, serve, srv, handler, ctx, errChan, ctxShutDown, callerDeadline,
      parentDone, interrupted, panicking, result, acquisitions, releases, sent, closes,
      chanPanic, listenRet, polled, wokenByExit, shutdownCalls, drainBegan, shutdownRet⟩ := s
    cases ctrl <;> simp [Start.step] at hs
    subst hs
    constructor <;> dsimp only <;>
      first
      | assumption
      | (simp [CtrlPC.stage] at * <;> simp [CtrlPC.stage, *])

/-- An event keeps the invariant, whether it can happen or not. -/
theorem Start.inv_next (s : State) (e : Event) (h : Start.Inv s) :
    Start.Inv (Start.next s e) := by
  unfold Start.next
  cases hs : Start.step e s with
  | none => simpa using h
  | some t => simpa using Start.inv_step e s t h hs

/-- A schedule keeps the invariant. -/
theorem Start.inv_exec (es : List Event) (s : State) (h : Start.Inv s) :
    Start.Inv (Start.exec s es) := by
  induction es generalizing s with
  | nil => simpa [Start.exec] using h
  | cons e es ih => exact ih (Start.next s e) (Start.inv_next s e h)

/-- The invariant holds in every state an invocation of `Start` reaches. -/
theorem Start.inv_run (srv : Server) (hd : Handler) (dl : Option Nat) (es : List Event) :
    Start.Inv (Start.run srv hd dl es) :=
  Start.inv_exec es _ (Start.inv_init srv hd dl)

/-- Once `Start` has returned, no event changes what it returned or what led to it. -/
theorem Start.next_returned (s : State) (e : Event) (h : s.ctrl = .returned) :
    (Start.next s e).ctrl = .returned ∧ (Start.next s e).result = s.result ∧
      (Start.next s e).polled = s.polled ∧ (Start.next s e).shutdownCalls = s.shutdownCalls ∧
      (Start.next s e).shutdownRet = s.shutdownRet := by
  unfold Start.next
  cases e with
  | ctrl => simp [Start.step, Start.ctrlStep, h]
  | serve =>
    simp only [Start.step, Start.serveStep]
    split <;> (try split) <;> (try split) <;> simp [h]
  | interrupt => simp [Start.step, h]
  | parentCancel => simp [Start.step, h]
  | listenReturn r => simp only [Start.step]; split <;> simp [h]
  | listenPanic => simp only [Start.step]; split <;> simp [h]
  | shutdownReturn r => simp [Start.step, h]
  | tick d => simp [Start.step, h]

/-- Once `Start` has returned, no schedule changes what it returned or what led to it. -/
theorem Start.exec_returned (es : List Event) (s : State) (h : s.ctrl = .returned) :
    (Start.exec s es).ctrl = .returned ∧ (Start.exec s es).result = s.result ∧
      (Start.exec s es).polled = s.polled ∧
      (Start.exec s es).shutdownCalls = s.shutdownCalls ∧
      (Start.exec s es).shutdownRet = s.shutdownRet := by
  induction es generalizing s with
  | nil => simp [Start.exec, h]
  | cons e es ih =>
    obtain ⟨h1, h2, h3, h4, h5⟩ := Start.next_returned s e h
    obtain ⟨k1, k2, k3, k4, k5⟩ := ih (Start.next s e) h1
    exact ⟨k1, k2.trans h2, k3.trans h3, k4.trans h4, k5.trans h5⟩

/-- Running a schedule in two parts. -/
theorem Start.exec_append (s : State) (es fs : List Event) :
    Start.exec s (es ++ fs) = Start.exec (Start.exec s es) fs := by
  simp [Start.exec, List.foldl_append]

/-- What the poll of lines 51-55 does in a reachable state whose channel holds what was
sent: a queued error is returned, and `Shutdown` has not been and will not be called. -/
theorem Start.poll_value (s : State) (h : Start.Inv s) (hp : s.ctrl = .poll) (e : GoError)
    (he : e ∈ s.sent) :
    s.sent = [e] ∧
    Start.step .ctrl s = some { s with ctrl := .returned,
                                       errChan := { s.errChan with buf := [] },
                                       polled := some (.value e),
                                       result := some (some e) } := by
  have hst : s.ctrl.stage = 4 := by rw [hp]; rfl
  have hpolled : s.polled = none := h.polled4 (by omega)
  have hbuf := h.bufNone hpolled
  have hlen : s.sent.length ≤ 1 := by
    rcases Nat.lt_or_ge s.serve.stage 6 with h5 | h6
    · rw [h.sent5 (by omega)]; simp
    · rw [h.sent6 h6]; exact specReport_length _
  have hsent : s.sent = [e] := by
    cases hs : s.sent with
    | nil => rw [hs] at he; simp at he
    | cons a l =>
      rw [hs] at he hlen
      cases l with
      | nil => simp at he; rw [he]
      | cons b l => simp at hlen
  refine ⟨hsent, ?_⟩
  simp [Start.step, Start.ctrlStep, hp, Chan.poll, hbuf, hsent, PollObs.received]

/-- A report of one value is a wrapped `ListenAndServe` error that is not the expected
closure. -/
theorem specReport_singleton (r : Option Err) (e : GoError) (h : specReport r = [e]) :
    ∃ e0, r = some (some e0) ∧ e0.isServerClosed = false ∧ e = .wrap e0 abnormalMsg := by
  unfold specReport at h
  split at h
  · rename_i e0
    cases hc : e0.isServerClosed
    · simp [hc] at h
      exact ⟨e0, rfl, hc, h.symm⟩
    · simp [hc] at h
  · simp at h

/-- What has been sent is nothing, or what the specification says is reported. -/
theorem Start.sent_eq (s : State) (h : Start.Inv s) :
    s.sent = [] ∨ s.sent = specReport s.listenRet := by
  rcases Nat.lt_or_ge s.serve.stage 6 with h5 | h6
  · exact Or.inl (h.sent5 (by omega))
  · exact Or.inr (h.sent6 h6)

/-- C1: when the serve task has sent an error `e` before the controller runs the `select` of
lines 51-55, that `select` is enabled and returns from `Start` with exactly `e`, which is
the error of `ListenAndServe` wrapped with "http.Server shutdown abnormally"; `Shutdown`
has not been called and is not called in any continuation. -/
theorem Start.sent_error_is_returned (srv : Server) (hd : Handler) (dl : Option Nat)
    (es : List Event) (e : GoError)
    (hpoll : (Start.run srv hd dl es).ctrl = .poll)
    (hsent : e ∈ (Start.run srv hd dl es).sent) (fs : List Event) :
    (∃ e0, (Start.run srv hd dl es).listenRet = some (some e0) ∧
      e0.isServerClosed = false ∧ e = .wrap e0 abnormalMsg) ∧
    (Start.step .ctrl (Start.run srv hd dl es)).isSome = true ∧
    (Start.run srv hd dl (es ++ .ctrl :: fs)).ctrl = .returned ∧
    (Start.run srv hd dl (es ++ .ctrl :: fs)).result = some (some e) ∧
    (Start.run srv hd dl (es ++ .ctrl :: fs)).shutdownCalls = 0 := by
  have hinv := Start.inv_run srv hd dl es
  obtain ⟨hs1, hstep⟩ := Start.poll_value _ hinv hpoll e hsent
  have hcalls : (Start.run srv hd dl es).shutdownCalls = 0 :=
    (hinv.drain5 (by rw [hpoll]; simp [CtrlPC.stage])).1
  refine ⟨?_, ?_, ?_⟩
  · rcases Start.sent_eq _ hinv with h0 | h1
    · rw [h0] at hs1; simp at hs1
    · exact specReport_singleton _ _ (h1 ▸ hs1)
  · rw [hstep]; rfl
  · have hrun : Start.run srv hd dl (es ++ .ctrl :: fs) =
        Start.exec (Start.next (Start.run srv hd dl es) .ctrl) fs := by
      unfold Start.run
      rw [Start.exec_append]
      rfl
    rw [hrun]
    have hnext : Start.next (Start.run srv hd dl es) .ctrl =
        (Start.step .ctrl (Start.run srv hd dl es)).getD (Start.run srv hd dl es) := rfl
    rw [hstep, Option.getD_some] at hnext
    obtain ⟨k1, k2, _, k4, _⟩ := Start.exec_returned fs
      (Start.next (Start.run srv hd dl es) .ctrl) (by rw [hnext])
    refine ⟨k1, ?_, ?_⟩
    · rw [k2, hnext]
    · rw [k4, hnext]; exact hcalls

/-- An instance: the address is in use, the bind error is sent before the poll and is what
`Start` returns, without a call of `Shutdown`. -/
theorem Start.sent_error_is_returned_witness :
    (Start.run (New "127.0.0.1:23461") 1 none bindFailure).ctrl = .poll ∧
    (Start.run (New "127.0.0.1:23461") 1 none (bindFailure ++ [.ctrl])).result =
      some (some (.wrap (.other "listen tcp 127.0.0.1:23461: bind: address already in use")
        abnormalMsg)) ∧
    (Start.run (New "127.0.0.1:23461") 1 none (bindFailure ++ [.ctrl])).shutdownCalls = 0 :=
  have h := Start.sent_error_is_returned (New "127.0.0.1:23461") 1 none bindFailure
    (.wrap (.other "listen tcp 127.0.0.1:23461: bind: address already in use") abnormalMsg)
    (by decide) (by decide) []
  ⟨by decide, h.2.2.2.1, h.2.2.2.2⟩

/-- When the serve task is at its send, the channel is open and its one slot is free. -/
theorem Start.send_ready (s : State) (h : Start.Inv s) (e : GoError)
    (hc : s.serve = .send e) :
    s.errChan.closed = false ∧ s.errChan.cap = 1 ∧ s.errChan.buf = [] := by
  have hst : s.serve.stage = 5 := by rw [hc]; rfl
  have hopen : s.errChan.closed = false := (h.open6 (by omega)).1
  have hsent : s.sent = [] := h.sent5 (by omega)
  have hcap : s.errChan.cap = 1 := h.cap1 (le_trans (by norm_num) (h.started (by omega)))
  refine ⟨hopen, hcap, ?_⟩
  cases hp : s.polled with
  | none => rw [h.bufNone hp, hsent]
  | some obs =>
    cases obs with
    | value v =>
      have := (h.bufValue v hp).1
      rw [hsent] at this; simp at this
    | closedEmpty =>
      have := (h.bufClosed hp).2.2
      rw [hopen] at this; simp at this
    | notReady => rw [h.bufNotReady hp, hsent]

/-- Between the return of `ListenAndServe` and the end of the goroutine the serve task is
never blocked and never panics on the channel: its next statement runs and takes it
further. -/
theorem Start.serve_progress (s : State) (h : Start.Inv s) (h4 : 4 ≤ s.serve.stage)
    (h7 : s.serve.stage ≤ 7) :
    ∃ t, Start.step .serve s = some t ∧ s.serve.stage < t.serve.stage ∧
      t.chanPanic = false := by
  have hnp := h.noPanic
  cases hc : s.serve with
  | notStarted => rw [hc] at h4; simp [ServePC.stage] at h4
  | setHandler => rw [hc] at h4; simp [ServePC.stage] at h4
  | callListen => rw [hc] at h4; simp [ServePC.stage] at h4
  | serving => rw [hc] at h4; simp [ServePC.stage] at h4
  | check r =>
    cases r with
    | none => simp [Start.step, Start.serveStep, hc, ServePC.stage, hnp]
    | some e =>
      cases he : e.isServerClosed <;>
        simp [Start.step, Start.serveStep, hc, ServePC.stage, hnp, he]
  | send e =>
    obtain ⟨hopen, hcap, hbuf⟩ := Start.send_ready s h e hc
    simp [Start.step, Start.serveStep, hc, Chan.send, hopen, hcap, hbuf, ServePC.stage, hnp]
  | deferClose =>
    have hst : s.serve.stage = 6 := by rw [hc]; rfl
    have hopen : s.errChan.closed = false := (h.open6 (by omega)).1
    simp [Start.step, Start.serveStep, hc, Chan.close, hopen, ServePC.stage, hnp]
  | deferCancel =>
    cases hp : s.panicking <;>
      simp [Start.step, Start.serveStep, hc, ServePC.stage, hnp, hp]
  | exited => rw [hc] at h7; simp [ServePC.stage] at h7
  | panicked => rw [hc] at h7; simp [ServePC.stage] at h7

/-- After `ListenAndServe` has ended, four turns of the serve task are enough for it to
finish. -/
theorem Start.serve_finishes (s : State) (h : Start.Inv s) (h4 : 4 ≤ s.serve.stage) :
    (Start.exec s [.serve, .serve, .serve, .serve]).serve.finished = true := by
  have step1 : ∀ u : State, Start.Inv u → 4 ≤ u.serve.stage →
      Start.Inv (Start.next u .serve) ∧
      (u.serve.stage = 8 ∨ u.serve.stage < (Start.next u .serve).serve.stage) ∧
      u.serve.stage ≤ (Start.next u .serve).serve.stage := by
    intro u hu h4u
    refine ⟨Start.inv_next u .serve hu, ?_⟩
    rcases Nat.lt_or_ge u.serve.stage 8 with h7 | h8
    · obtain ⟨t, ht, hlt, _⟩ := Start.serve_progress u hu h4u (by omega)
      have : Start.next u .serve = t := by simp [Start.next, ht]
      rw [this]
      exact ⟨Or.inr hlt, by omega⟩
    · have h8' : u.serve.stage = 8 := le_antisymm (servePC_stage_le _) h8
      have : Start.next u .serve = u := by
        cases hc : u.serve <;> rw [hc] at h8' <;> simp [ServePC.stage] at h8' <;>
          simp [Start.next, Start.step, Start.serveStep, hc]
      rw [this]
      exact ⟨Or.inl h8', le_refl _⟩
  obtain ⟨i1, a1, b1⟩ := step1 s h h4
  obtain ⟨i2, a2, b2⟩ := step1 _ i1 (by omega)
  obtain ⟨i3, a3, b3⟩ := step1 _ i2 (by omega)
  obtain ⟨i4, a4, b4⟩ := step1 _ i3 (by omega)
  have hle := servePC_stage_le (Start.next (Start.next (Start.next (Start.next s .serve)
    .serve) .serve) .serve).serve
  show decide (_ = 8) = true
  simp only [decide_eq_true_eq]
  show (Start.next (Start.next (Start.next (Start.next s .serve) .serve) .serve)
    .serve).serve.stage = 8
  omega

/-- C6: in every reachable state the serve task has sent at most one value and closed the
channel at most once, without panic; its send finds the one-slot buffer free, so it does
not block; the channel is closed only when the serve task is past its send, and it is
closed exactly once when the serve task has finished, after which a receive is ready.
Whatever way `ListenAndServe` ends (a return of any value, or a panic), the serve task
then finishes within four of its own turns. -/
theorem Start.error_channel_protocol (srv : Server) (hd : Handler) (dl : Option Nat)
    (es : List Event) :
    let s := Start.run srv hd dl es
    s.sent.length ≤ 1 ∧ s.closes ≤ 1 ∧ s.chanPanic = false ∧
    (∀ e, s.serve = .send e → s.errChan.send e = .sent { s.errChan with buf := [e] }) ∧
    (s.errChan.closed = true → 7 ≤ s.serve.stage) ∧
    (s.serve.finished = true → s.closes = 1 ∧ s.errChan.closed = true ∧
      s.errChan.poll.1 ≠ .notReady) ∧
    (4 ≤ s.serve.stage → s.serve.stage ≤ 7 →
      ∃ t, Start.step .serve s = some t ∧ s.serve.stage < t.serve.stage) ∧
    (s.serve = .serving → ∀ r,
      (Start.exec s [.listenReturn r, .serve, .serve, .serve, .serve]).serve.finished = true ∧
      (Start.exec s [.listenPanic, .serve, .serve, .serve, .serve]).serve.finished = true) := by
  intro s
  have hinv : Start.Inv s := Start.inv_run srv hd dl es
  refine ⟨?_, ?_, hinv.noPanic, ?_, ?_, ?_, ?_, ?_⟩
  · rcases Start.sent_eq s hinv with h0 | h1
    · rw [h0]; simp
    · rw [h1]; exact specReport_length _
  · rcases Nat.lt_or_ge s.serve.stage 7 with h6 | h7
    · rw [(hinv.open6 (by omega)).2]; omega
    · rw [(hinv.closed7 h7).2]
  · intro e hc
    obtain ⟨hopen, hcap, hbuf⟩ := Start.send_ready s hinv e hc
    have hch : s.errChan = { buf := [], cap := 1, closed := false } := by
      rcases hs : s.errChan with ⟨b, c, d⟩
      rw [hs] at hopen hcap hbuf
      simp at hopen hcap hbuf
      simp [hopen, hcap, hbuf]
    rw [hch]
    rfl
  · intro hcl
    by_contra hlt
    have := (hinv.open6 (by omega)).1
    rw [this] at hcl; simp at hcl
  · intro hf
    have h8 : s.serve.stage = 8 := by simpa [ServePC.finished] using hf
    obtain ⟨hcl, hcs⟩ := hinv.closed7 (by omega)
    refine ⟨hcs, hcl, ?_⟩
    unfold Chan.poll
    split
    · simp
    · simp [hcl]
  · intro h4 h7
    obtain ⟨t, ht, hlt, _⟩ := Start.serve_progress s hinv h4 h7
    exact ⟨t, ht, hlt⟩
  · intro hc r
    constructor
    · have hn : Start.next s (.listenReturn r) =
          { s with serve := .check r, listenRet := some r } := by
        simp [Start.next, Start.step, hc]
      have hi := Start.inv_next s (.listenReturn r) hinv
      have := Start.serve_finishes _ hi (by rw [hn]; simp [ServePC.stage])
      simpa [Start.exec] using this
    · have hn : Start.next s .listenPanic =
          { s with serve := .deferClose, panicking := true } := by
        simp [Start.next, Start.step, hc]
      have hi := Start.inv_next s .listenPanic hinv
      have := Start.serve_finishes _ hi (by rw [hn]; simp [ServePC.stage])
      simpa [Start.exec] using this

/-- An instance: after a panic of `ListenAndServe` the serve task has finished, the channel
is closed once and a receive is ready. -/
theorem Start.error_channel_protocol_witness :
    (Start.run (New ":8080") 1 none servePanic).serve.finished = true ∧
    (Start.run (New ":8080") 1 none servePanic).closes = 1 ∧
    (Start.run (New ":8080") 1 none servePanic).errChan.closed = true ∧
    (Start.run (New ":8080") 1 none servePanic).errChan.poll.1 ≠ .notReady :=
  ⟨by decide,
   (Start.error_channel_protocol (New ":8080") 1 none servePanic).2.2.2.2.2.1 (by decide)⟩

/-- C2: when the poll found the channel neither holding a value nor closed, the value
`Start` returns is decided by `Shutdown` alone: `nil` exactly when `Shutdown` returned `nil`,
and otherwise the error of `Shutdown` wrapped with the message of line 61; and once
`Shutdown` returns, the controller does return.  In `TestServer_Start` a request of 1 ms
gives no error, a request of 10 s gives the wrapped deadline error after 5 seconds. -/
theorem Start.drain_decides (srv : Server) (hd : Handler) (dl : Option Nat) (es : List Event)
    (hdrain : (Start.run srv hd dl es).polled = some .notReady) (r : Err) :
    (∀ x, (Start.run srv hd dl es).result = some x →
      ∃ r0, (Start.run srv hd dl es).shutdownRet = some r0 ∧ (x = none ↔ r0 = none) ∧
        ∀ e, r0 = some e → x = some (.wrap e gracelessMsg)) ∧
    ((Start.run srv hd dl es).shutdownRet = none →
      (Start.run srv hd dl (es ++ [.ctrl, .shutdownReturn r, .ctrl])).ctrl = .returned ∧
      (Start.run srv hd dl (es ++ [.ctrl, .shutdownReturn r, .ctrl])).result =
        some (r.map (GoError.wrap · gracelessMsg))) ∧
    (testServerStart millisecond).result = some none ∧
    (testServerStart (10 * second)).result =
      some (some (.wrap .deadlineExceeded gracelessMsg)) ∧
    (testServerStart (10 * second)).now =
      (Start.run testServer 1 none testUntilDrain).now + 5 * second := by
  have hinv := Start.inv_run srv hd dl es
  refine ⟨?_, ?_, by decide, by decide, by decide⟩
  · intro x hx
    have h8 : (Start.run srv hd dl es).ctrl.stage = 8 := by
      rcases Nat.lt_or_ge (Start.run srv hd dl es).ctrl.stage 8 with h7 | h8
      · have := hinv.result7 (by omega)
        rw [this] at hx; simp at hx
      · have := ctrlPC_stage_le (Start.run srv hd dl es).ctrl
        omega
    obtain ⟨obs, hobs, hres⟩ := hinv.result8 h8
    rw [hdrain] at hobs
    have hobs' : obs = .notReady := by simpa using hobs.symm
    subst hobs'
    have hne := hinv.ret8 h8 hdrain
    rw [hx] at hres
    cases hr : (Start.run srv hd dl es).shutdownRet with
    | none => exact absurd hr hne
    | some r0 =>
      rw [hr] at hres
      refine ⟨r0, rfl, ?_, ?_⟩
      · cases r0 <;> simp_all [specOutcome]
      · intro e he
        subst he
        simpa [specOutcome] using hres
  · intro hnone
    have hrun : Start.run srv hd dl (es ++ [.ctrl, .shutdownReturn r, .ctrl]) =
        Start.exec (Start.run srv hd dl es) [.ctrl, .shutdownReturn r, .ctrl] := by
      unfold Start.run
      rw [Start.exec_append]
    rw [hrun]
    generalize Start.run srv hd dl es = s at *
    have h5 : 5 ≤ s.ctrl.stage := by
      by_contra hlt
      have := hinv.polled4 (by omega)
      rw [this] at hdrain; simp at hdrain
    cases hc : s.ctrl with
    | capture => rw [hc] at h5; simp [CtrlPC.stage] at h5
    | makeChan => rw [hc] at h5; simp [CtrlPC.stage] at h5
    | spawn => rw [hc] at h5; simp [CtrlPC.stage] at h5
    | awaitDone => rw [hc] at h5; simp [CtrlPC.stage] at h5
    | poll => rw [hc] at h5; simp [CtrlPC.stage] at h5
    | drain =>
      cases r <;> simp [Start.exec, Start.next, Start.step, Start.ctrlStep, hc]
    | inShutdown =>
      cases r <;> simp [Start.exec, Start.next, Start.step, Start.ctrlStep, hc]
    | afterShutdown r0 =>
      have := hinv.ret7 r0 hc
      rw [this] at hnone; simp at hnone
    | returned =>
      have := hinv.ret8 (by rw [hc]; rfl) hdrain
      exact absurd hnone this

/-- An instance: in the test scenario the poll finds the channel not ready, and a `Shutdown`
that runs into its deadline makes `Start` return the wrapped deadline error. -/
theorem Start.drain_decides_witness :
    (Start.run testServer 1 none testUntilDrain).polled = some .notReady ∧
    (Start.run testServer 1 none testUntilDrain).shutdownRet = none ∧
    (Start.run testServer 1 none
      (testUntilDrain ++ [.ctrl, .shutdownReturn (some .deadlineExceeded), .ctrl])).result =
      some (some (.wrap .deadlineExceeded gracelessMsg)) :=
  ⟨by decide, by decide,
   ((Start.drain_decides testServer 1 none testUntilDrain (by decide)
      (some .deadlineExceeded)).2.1 (by decide)).2⟩

/-- What `Start` has returned, in terms of what the poll found and what `Shutdown`
returned. -/
theorem Start.result_eq (s : State) (h : Start.Inv s) (x : Err) (hx : s.result = some x) :
    s.ctrl = .returned ∧ ∃ obs, s.polled = some obs ∧ x = specOutcome obs s.shutdownRet ∧
      (obs = .notReady → s.shutdownRet ≠ none) := by
  have h8 : s.ctrl.stage = 8 := by
    rcases Nat.lt_or_ge s.ctrl.stage 8 with h7 | h8
    · have := h.result7 (by omega)
      rw [this] at hx; simp at hx
    · have := ctrlPC_stage_le s.ctrl
      omega
  obtain ⟨obs, hobs, hres⟩ := h.result8 h8
  refine ⟨?_, obs, hobs, ?_, ?_⟩
  · cases hc : s.ctrl <;> rw [hc] at h8 <;> simp [CtrlPC.stage] at h8
  · rw [hx] at hres; simpa using hres
  · intro ho; subst ho; exact h.ret8 h8 hobs

/-- C3 (as stated, refuted): in the schedule `lateFault` the serve task sends the bind
error on the error channel, and `Start` returns `nil`. -/
theorem Start.late_error_is_dropped :
    (Start.run (New "127.0.0.1:23461") 1 none lateFault).sent =
      [.wrap (.other "listen tcp 127.0.0.1:23461: bind: address already in use")
        abnormalMsg] ∧
    (Start.run (New "127.0.0.1:23461") 1 none lateFault).polled = some .notReady ∧
    (Start.run (New "127.0.0.1:23461") 1 none lateFault).ctrl = .returned ∧
    (Start.run (New "127.0.0.1:23461") 1 none lateFault).result = some none := by
  decide

/-- What the poll found is recorded once and for all. -/
theorem Start.next_polled (s : State) (h : Start.Inv s) (e : Event) (o : PollObs)
    (hp : s.polled = some o) : (Start.next s e).polled = some o := by
  unfold Start.next
  cases e with
  | ctrl =>
    cases hc : s.ctrl with
    | poll =>
      have := h.polled4 (by rw [hc]; simp [CtrlPC.stage])
      rw [this] at hp; simp at hp
    | awaitDone =>
      by_cases hd : s.ctxDone = true <;> simp [Start.step, Start.ctrlStep, hc, hd, hp]
    | afterShutdown r => cases r <;> simp [Start.step, Start.ctrlStep, hc, hp]
    | _ => simp [Start.step, Start.ctrlStep, hc, hp]
  | serve =>
    simp only [Start.step, Start.serveStep]
    split <;> (try split) <;> (try split) <;> simp [hp]
  | interrupt => simp [Start.step, hp]
  | parentCancel => simp [Start.step, hp]
  | listenReturn r => simp only [Start.step]; split <;> simp [hp]
  | listenPanic => simp only [Start.step]; split <;> simp [hp]
  | shutdownReturn r => simp only [Start.step]; split <;> simp [hp]
  | tick d => simp [Start.step, hp]

/-- What the poll found stays recorded along every schedule. -/
theorem Start.exec_polled (fs : List Event) (s : State) (h : Start.Inv s) (o : PollObs)
    (hp : s.polled = some o) : (Start.exec s fs).polled = some o := by
  induction fs generalizing s with
  | nil => simpa [Start.exec] using hp
  | cons e fs ih =>
    exact ih (Start.next s e) (Start.inv_next s e h) (Start.next_polled s h e o hp)

/-- The record of the poll is written by the controller's step at the `select`, and by no
other event. -/
theorem Start.next_polled_written (s : State) (e : Event) (hp : s.polled = none)
    (hn : (Start.next s e).polled ≠ none) : e = .ctrl ∧ s.ctrl = .poll := by
  unfold Start.next at hn
  cases e with
  | ctrl =>
    refine ⟨rfl, ?_⟩
    cases hc : s.ctrl with
    | poll => rfl
    | awaitDone =>
      by_cases hd : s.ctxDone = true <;> simp [Start.step, Start.ctrlStep, hc, hd, hp] at hn
    | afterShutdown r => cases r <;> simp [Start.step, Start.ctrlStep, hc, hp] at hn
    | _ => simp [Start.step, Start.ctrlStep, hc, hp] at hn
  | serve =>
    exfalso
    apply hn
    simp only [Start.step, Start.serveStep]
    split <;> (try split) <;> (try split) <;> simp [hp]
  | interrupt => simp [Start.step, hp] at hn
  | parentCancel => simp [Start.step, hp] at hn
  | listenReturn r =>
    exfalso; apply hn
    simp only [Start.step]; split <;> simp [hp]
  | listenPanic =>
    exfalso; apply hn
    simp only [Start.step]; split <;> simp [hp]
  | shutdownReturn r =>
    exfalso; apply hn
    simp only [Start.step]; split <;> simp [hp]
  | tick d => simp [Start.step, hp] at hn

/-- A schedule after which the poll is on record runs the `select` of lines 51-55 at some
point: it splits into a part that brings the controller to the `select`, the controller's
step there, and a rest. -/
theorem Start.poll_split (srv : Server) (hd : Handler) (dl : Option Nat) (all : List Event)
    (hp : (Start.run srv hd dl all).polled ≠ none) :
    ∃ es fs, all = es ++ .ctrl :: fs ∧ (Start.run srv hd dl es).ctrl = .poll := by
  induction all using List.reverseRecOn with
  | nil => exact absurd rfl hp
  | append_singleton l a ih =>
    have hrun : Start.run srv hd dl (l ++ [a]) = Start.next (Start.run srv hd dl l) a := by
      unfold Start.run
      rw [Start.exec_append]
      rfl
    by_cases hl : (Start.run srv hd dl l).polled = none
    · rw [hrun] at hp
      obtain ⟨ha, hc⟩ := Start.next_polled_written _ a hl hp
      exact ⟨l, [], by rw [ha], hc⟩
    · obtain ⟨es, fs, hsplit, hc⟩ := ih hl
      exact ⟨es, fs ++ [a], by rw [hsplit]; simp, hc⟩

/-- What the `select` of lines 51-55 does when nothing has been sent: on an open channel it
takes `default` and the controller goes on to drain; on a closed one it returns `nil`. -/
theorem Start.poll_empty (s : State) (h : Start.Inv s) (hp : s.ctrl = .poll)
    (hs : s.sent = []) :
    (Start.next s .ctrl).polled =
      some (if s.errChan.closed then .closedEmpty else .notReady) := by
  have hpolled : s.polled = none := h.polled4 (by rw [hp]; simp [CtrlPC.stage])
  have hbuf : s.errChan.buf = [] := by rw [h.bufNone hpolled, hs]
  cases hc : s.errChan.closed <;>
    simp [Start.next, Start.step, Start.ctrlStep, hp, Chan.poll, hbuf, hc, PollObs.received]

/-- C3 (amended): let the serve task have sent an error `e` and `Start` have returned `x`.
The schedule then runs the `select` of lines 51-55 exactly where the controller stands at
it, and at every such point: if `e` had been sent when the `select` ran, the `select`
received it and `x` is `e`, with no call of `Shutdown`; if `e` had not been sent yet, the
`select` found the channel not ready, `e` is never read, and `x` is decided by `Shutdown`
alone: `nil` exactly when `Shutdown` returned `nil`, and otherwise its error wrapped with
the message of line 61.  In terms of the final state: `x` is `nil` exactly when the poll
found the channel not ready and `Shutdown` returned `nil`. -/
theorem Start.sent_error_dropped_only_after_poll (srv : Server) (hd : Handler)
    (dl : Option Nat) (all : List Event) (e : GoError) (x : Err)
    (hsent : e ∈ (Start.run srv hd dl all).sent)
    (hx : (Start.run srv hd dl all).result = some x) :
    (∃ es fs, all = es ++ .ctrl :: fs ∧ (Start.run srv hd dl es).ctrl = .poll) ∧
    (∀ es fs, all = es ++ .ctrl :: fs → (Start.run srv hd dl es).ctrl = .poll →
      (e ∈ (Start.run srv hd dl es).sent →
        (Start.run srv hd dl (es ++ [.ctrl])).polled = some (.value e) ∧
        (Start.run srv hd dl all).polled = some (.value e) ∧
        x = some e ∧ (Start.run srv hd dl all).shutdownCalls = 0) ∧
      (e ∉ (Start.run srv hd dl es).sent →
        (Start.run srv hd dl es).sent = [] ∧
        (Start.run srv hd dl (es ++ [.ctrl])).polled = some .notReady ∧
        (Start.run srv hd dl all).polled = some .notReady ∧
        ∃ r, (Start.run srv hd dl all).shutdownRet = some r ∧ (x = none ↔ r = none) ∧
          ∀ se, r = some se → x = some (.wrap se gracelessMsg))) ∧
    (x = none ↔ (Start.run srv hd dl all).polled = some .notReady ∧
      (Start.run srv hd dl all).shutdownRet = some none) ∧
    ((Start.run srv hd dl all).polled ≠ some .notReady → x = some e) ∧
    (∀ se, (Start.run srv hd dl all).shutdownRet = some (some se) →
      (Start.run srv hd dl all).polled = some .notReady →
      x = some (.wrap se gracelessMsg)) := by
  have hinv := Start.inv_run srv hd dl all
  obtain ⟨_, obs, hobs, hres, hret⟩ := Start.result_eq _ hinv x hx
  -- what the final state says
  have hfinal : (x = none ↔ (Start.run srv hd dl all).polled = some .notReady ∧
        (Start.run srv hd dl all).shutdownRet = some none) ∧
      ((Start.run srv hd dl all).polled ≠ some .notReady → x = some e) ∧
      (∀ se, (Start.run srv hd dl all).shutdownRet = some (some se) →
        (Start.run srv hd dl all).polled = some .notReady →
        x = some (.wrap se gracelessMsg)) := by
    generalize Start.run srv hd dl all = s at *
    cases obs with
    | value v =>
      obtain ⟨hs, _⟩ := hinv.bufValue v hobs
      rw [hs] at hsent
      have hev : e = v := by simpa using hsent
      subst hev
      simp [hobs, hres, specOutcome]
    | closedEmpty =>
      obtain ⟨hs, _⟩ := hinv.bufClosed hobs
      rw [hs] at hsent
      simp at hsent
    | notReady =>
      cases hr : s.shutdownRet with
      | none => exact absurd hr (hret rfl)
      | some r0 =>
        cases r0 with
        | none => simp [hobs, hres, specOutcome, hr]
        | some se => simp [hobs, hres, specOutcome, hr]
  refine ⟨Start.poll_split srv hd dl all (by rw [hobs]; simp), ?_, hfinal⟩
  intro es fs hall hpoll
  have hi := Start.inv_run srv hd dl es
  have hrun1 : Start.run srv hd dl (es ++ [.ctrl]) =
      Start.next (Start.run srv hd dl es) .ctrl := by
    unfold Start.run
    rw [Start.exec_append]
    rfl
  have hrun : Start.run srv hd dl all =
      Start.exec (Start.next (Start.run srv hd dl es) .ctrl) fs := by
    rw [hall]
    unfold Start.run
    rw [Start.exec_append]
    rfl
  have hi1 : Start.Inv (Start.next (Start.run srv hd dl es) .ctrl) :=
    Start.inv_next _ .ctrl hi
  -- an error on record at the poll is received
  have received : ∀ v, v ∈ (Start.run srv hd dl es).sent →
      (Start.next (Start.run srv hd dl es) .ctrl).polled = some (.value v) ∧
      (Start.run srv hd dl all).polled = some (.value v) := by
    intro v hv
    obtain ⟨_, hstep⟩ := Start.poll_value _ hi hpoll v hv
    have hnext : Start.next (Start.run srv hd dl es) .ctrl =
        (Start.step .ctrl (Start.run srv hd dl es)).getD (Start.run srv hd dl es) := rfl
    rw [hstep, Option.getD_some] at hnext
    have hp1 : (Start.next (Start.run srv hd dl es) .ctrl).polled = some (.value v) := by
      rw [hnext]
    exact ⟨hp1, by rw [hrun]; exact Start.exec_polled fs _ hi1 _ hp1⟩
  constructor
  · intro he
    obtain ⟨hp1, hpall⟩ := received e he
    refine ⟨by rw [hrun1]; exact hp1, hpall, ?_, ?_⟩
    · exact hfinal.2.1 (by rw [hpall]; simp)
    · exact (hinv.drainSkip (by rw [hpall]; simp) (by rw [hpall]; simp)).1
  · intro hne
    have hempty : (Start.run srv hd dl es).sent = [] := by
      cases hs : (Start.run srv hd dl es).sent with
      | nil => rfl
      | cons v l =>
        exfalso
        obtain ⟨_, hpall⟩ := received v (by rw [hs]; simp)
        have hsv := (hinv.bufValue v hpall).1
        rw [hsv] at hsent
        have hev : e = v := by simpa using hsent
        exact hne (by rw [hs, hev]; simp)
    have hp1 := Start.poll_empty _ hi hpoll hempty
    have hopen : (Start.run srv hd dl es).errChan.closed = false := by
      cases hc : (Start.run srv hd dl es).errChan.closed with
      | false => rfl
      | true =>
        exfalso
        rw [hc] at hp1
        have hpall : (Start.run srv hd dl all).polled = some .closedEmpty := by
          rw [hrun]; exact Start.exec_polled fs _ hi1 _ (by simpa using hp1)
        have := (hinv.bufClosed hpall).1
        rw [this] at hsent
        simp at hsent
    rw [hopen] at hp1
    have hp1' : (Start.next (Start.run srv hd dl es) .ctrl).polled = some .notReady := by
      simpa using hp1
    have hpall : (Start.run srv hd dl all).polled = some .notReady := by
      rw [hrun]; exact Start.exec_polled fs _ hi1 _ hp1'
    refine ⟨hempty, by rw [hrun1]; exact hp1', hpall, ?_⟩
    rw [hpall] at hobs
    have hobs' : obs = .notReady := by simpa using hobs.symm
    subst hobs'
    cases hr : (Start.run srv hd dl all).shutdownRet with
    | none => exact absurd hr (hret rfl)
    | some r0 =>
      rw [hr] at hres
      refine ⟨r0, rfl, ?_, ?_⟩
      · cases r0 <;> simp [hres, specOutcome]
      · intro se hse
        subst hse
        simpa [specOutcome] using hres

/-- Two instances.  In `bindFailure` the bind error has been sent when the controller
stands at the `select`: it is received and returned, without a call of `Shutdown`.  In
`lateFault` it has not been sent yet: the `select` finds the channel not ready, and with
`Shutdown` returning `nil` the value returned is `nil`. -/
theorem Start.sent_error_dropped_only_after_poll_witness :
    (wrappedBindError ∈
        (Start.run (New "127.0.0.1:23461") 1 none (bindFailure ++ [.ctrl])).sent ∧
      (Start.run (New "127.0.0.1:23461") 1 none (bindFailure ++ [.ctrl])).result =
        some (some wrappedBindError) ∧
      (Start.run (New "127.0.0.1:23461") 1 none bindFailure).ctrl = .poll ∧
      wrappedBindError ∈ (Start.run (New "127.0.0.1:23461") 1 none bindFailure).sent ∧
      (Start.run (New "127.0.0.1:23461") 1 none (bindFailure ++ [.ctrl])).polled =
        some (.value wrappedBindError) ∧
      (Start.run (New "127.0.0.1:23461") 1 none (bindFailure ++ [.ctrl])).shutdownCalls = 0) ∧
    (wrappedBindError ∈ (Start.run (New "127.0.0.1:23461") 1 none lateFault).sent ∧
      (Start.run (New "127.0.0.1:23461") 1 none lateFault).result = some none ∧
      lateFault = lateFaultUntilPoll ++ .ctrl :: lateFaultAfterPoll ∧
      (Start.run (New "127.0.0.1:23461") 1 none lateFaultUntilPoll).ctrl = .poll ∧
      wrappedBindError ∉ (Start.run (New "127.0.0.1:23461") 1 none lateFaultUntilPoll).sent ∧
      (Start.run (New "127.0.0.1:23461") 1 none lateFault).polled = some .notReady ∧
      ((none : Err) = none ↔
        (Start.run (New "127.0.0.1:23461") 1 none lateFault).polled = some .notReady ∧
        (Start.run (New "127.0.0.1:23461") 1 none lateFault).shutdownRet = some none)) := by
  have hsent : wrappedBindError ∈
      (Start.run (New "127.0.0.1:23461") 1 none (bindFailure ++ [.ctrl])).sent := by decide
  have hx : (Start.run (New "127.0.0.1:23461") 1 none (bindFailure ++ [.ctrl])).result =
      some (some wrappedBindError) := by decide
  have hpoll : (Start.run (New "127.0.0.1:23461") 1 none bindFailure).ctrl = .poll := by
    decide
  have hbefore : wrappedBindError ∈
      (Start.run (New "127.0.0.1:23461") 1 none bindFailure).sent := by decide
  have h := Start.sent_error_dropped_only_after_poll (New "127.0.0.1:23461") 1 none
    (bindFailure ++ [.ctrl]) wrappedBindError (some wrappedBindError)
  have hsplit := (h hsent hx).2.1 bindFailure [] rfl hpoll
  have ksent : wrappedBindError ∈
      (Start.run (New "127.0.0.1:23461") 1 none lateFault).sent := by decide
  have kx : (Start.run (New "127.0.0.1:23461") 1 none lateFault).result = some none := by
    decide
  have keq : lateFault = lateFaultUntilPoll ++ .ctrl :: lateFaultAfterPoll := by decide
  have kpoll : (Start.run (New "127.0.0.1:23461") 1 none lateFaultUntilPoll).ctrl = .poll := by
    decide
  have kafter : wrappedBindError ∉
      (Start.run (New "127.0.0.1:23461") 1 none lateFaultUntilPoll).sent := by decide
  have k := Start.sent_error_dropped_only_after_poll (New "127.0.0.1:23461") 1 none
    lateFault wrappedBindError none
  have ksplit := (k ksent kx).2.1 lateFaultUntilPoll lateFaultAfterPoll keq kpoll
  exact ⟨⟨hsent, hx, hpoll, hbefore, (hsplit.1 hbefore).2.1, (hsplit.1 hbefore).2.2.2⟩,
    ⟨ksent, kx, keq, kpoll, kafter, (ksplit.2 kafter).2.2.1, (k ksent kx).2.2.1⟩⟩

/-- The messages of lines 46 and 61 differ. -/
theorem abnormalMsg_ne_gracelessMsg : abnormalMsg ≠ gracelessMsg := by decide

/-- C4: when `ListenAndServe` has returned `nil` or an error for which
`errors.Is(err, http.ErrServerClosed)` holds, the serve task has sent nothing and goes
from line 45 straight to its deferred calls; a value returned by `Start` is then never a
listener fault: it is `nil`, or the wrapped error of a `Shutdown` that failed. -/
theorem Start.expected_closure_is_success (srv : Server) (hd : Handler) (dl : Option Nat)
    (es : List Event) (r : Err)
    (hret : (Start.run srv hd dl es).listenRet = some r)
    (hclosed : ∀ e, r = some e → e.isServerClosed = true) :
    (Start.run srv hd dl es).sent = [] ∧
    ((Start.run srv hd dl es).serve = .check r →
      (Start.next (Start.run srv hd dl es) .serve).serve = .deferClose) ∧
    (∀ x, (Start.run srv hd dl es).result = some x →
      category x ≠ .listenerFault ∧
      (x = none ∨ ∃ se, (Start.run srv hd dl es).shutdownRet = some (some se) ∧
        x = some (.wrap se gracelessMsg))) := by
  have hinv := Start.inv_run srv hd dl es
  generalize Start.run srv hd dl es = s at *
  have hrep : specReport s.listenRet = [] := by
    rw [hret]
    cases r with
    | none => rfl
    | some e => simp [specReport, hclosed e rfl]
  have hsent : s.sent = [] := by
    rcases Start.sent_eq s hinv with h0 | h1
    · exact h0
    · rw [h1, hrep]
  refine ⟨hsent, ?_, ?_⟩
  · intro hc
    cases r with
    | none => simp [Start.next, Start.step, Start.serveStep, hc]
    | some e => simp [Start.next, Start.step, Start.serveStep, hc, hclosed e rfl]
  · intro x hx
    obtain ⟨_, obs, hobs, hres, hne⟩ := Start.result_eq s hinv x hx
    cases obs with
    | value v =>
      have := (hinv.bufValue v hobs).1
      rw [hsent] at this; simp at this
    | closedEmpty =>
      subst hres
      simp [specOutcome, category]
    | notReady =>
      cases hr : s.shutdownRet with
      | none => exact absurd hr (hne rfl)
      | some r0 =>
        cases r0 with
        | none => subst hres; simp [specOutcome, category, hr]
        | some se =>
          subst hres
          have hne' : ¬ gracelessMsg = abnormalMsg := fun h => abnormalMsg_ne_gracelessMsg h.symm
          simp [specOutcome, category, hr, hne']

/-- An instance: a stop by interrupt, where `ListenAndServe` returns `ErrServerClosed`,
nothing is sent and `Start` returns `nil`. -/
theorem Start.expected_closure_is_success_witness :
    (Start.run (New ":8080") 1 none earlyReturn).listenRet = some (some .errServerClosed) ∧
    (Start.run (New ":8080") 1 none earlyReturn).sent = [] ∧
    (Start.run (New ":8080") 1 none earlyReturn).result = some none :=
  ⟨by decide,
   (Start.expected_closure_is_success (New ":8080") 1 none earlyReturn
      (some .errServerClosed) (by decide) (by decide)).1,
   by decide⟩

/-- C5 (as stated, refuted): in the schedule `earlyReturn` the controller has returned
from `Start` after one call of `CaptureInterrupts`, and `cancel` has not been called. -/
theorem Start.returns_before_release :
    (Start.run (New ":8080") 1 none earlyReturn).ctrl = .returned ∧
    (Start.run (New ":8080") 1 none earlyReturn).result = some none ∧
    (Start.run (New ":8080") 1 none earlyReturn).acquisitions = 1 ∧
    (Start.run (New ":8080") 1 none earlyReturn).releases = 0 := by
  decide

/-- C5 (amended): an invocation of `Start` calls `CaptureInterrupts` exactly once; `cancel`
is called only by the deferred call of the serve task, so it has been called exactly once
when the serve task has finished and not at all before, and once `ListenAndServe` has
ended four turns of the serve task are enough for that; hence after cycles in which
`Start` has returned and the serve task has finished, there are as many acquisitions and
as many releases as cycles. -/
theorem Start.release_by_serve_task (srv : Server) (hd : Handler) (dl : Option Nat)
    (es : List Event) (cycles : List Cycle)
    (hdone : ∀ c ∈ cycles, c.final.ctrl = .returned ∧ c.final.serve.finished = true) :
    ((Start.run srv hd dl es).ctrl ≠ .capture → (Start.run srv hd dl es).acquisitions = 1) ∧
    (Start.run srv hd dl es).releases =
      (if (Start.run srv hd dl es).serve.finished then 1 else 0) ∧
    (4 ≤ (Start.run srv hd dl es).serve.stage →
      (Start.exec (Start.run srv hd dl es) [.serve, .serve, .serve, .serve]).releases = 1) ∧
    totalAcquisitions (cycles.map Cycle.final) = cycles.length ∧
    totalReleases (cycles.map Cycle.final) = cycles.length := by
  have key : ∀ s : State, Start.Inv s →
      (s.ctrl ≠ .capture → s.acquisitions = 1) ∧
      s.releases = (if s.serve.finished then 1 else 0) := by
    intro s hinv
    constructor
    · intro hc
      apply hinv.acq1
      cases hs : s.ctrl <;> simp_all [CtrlPC.stage]
    · rcases Nat.lt_or_ge s.serve.stage 8 with h7 | h8
      · have hf : s.serve.finished = false := by
          simp [ServePC.finished]; omega
        rw [hf, hinv.rel7 (by omega)]; rfl
      · have h8' : s.serve.stage = 8 := le_antisymm (servePC_stage_le _) h8
        have hf : s.serve.finished = true := by simp [ServePC.finished, h8']
        rw [hf, hinv.rel8 h8']; rfl
  refine ⟨(key _ (Start.inv_run srv hd dl es)).1, (key _ (Start.inv_run srv hd dl es)).2,
    ?_, ?_⟩
  · intro h4
    have hi := Start.inv_run srv hd dl es
    have hf := Start.serve_finishes _ hi h4
    have hi4 := Start.inv_exec [.serve, .serve, .serve, .serve] _ hi
    rw [(key _ hi4).2, hf]; rfl
  induction cycles with
  | nil => simp [totalAcquisitions, totalReleases]
  | cons c cs ih =>
    have hc := hdone c (List.mem_cons_self c cs)
    obtain ⟨ih1, ih2⟩ := ih (fun d hdm => hdone d (List.mem_cons_of_mem c hdm))
    have hk := key c.final (Start.inv_run c.srv c.handler c.deadline c.schedule)
    have ha : c.final.acquisitions = 1 := hk.1 (by rw [hc.1]; simp)
    have hr : c.final.releases = 1 := by rw [hk.2, hc.2]; rfl
    unfold totalAcquisitions totalReleases at *
    simp only [List.map_cons, List.sum_cons, List.length_cons]
    constructor <;> omega

/-- An instance: two finished cycles, two acquisitions, two releases. -/
theorem Start.release_by_serve_task_witness :
    (∀ c ∈ twoCycles, c.final.ctrl = .returned ∧ c.final.serve.finished = true) ∧
    totalAcquisitions (twoCycles.map Cycle.final) = twoCycles.length ∧
    totalReleases (twoCycles.map Cycle.final) = twoCycles.length :=
  have h : ∀ c ∈ twoCycles, c.final.ctrl = .returned ∧ c.final.serve.finished = true := by
    decide
  ⟨h, (Start.release_by_serve_task (New ":8080") 1 none [] twoCycles h).2.2.2⟩

/-- C7: the context handed to `Shutdown` is `context.WithTimeout(context.Background(),
shutdownHammer)` taken at the instant the drain begins: its deadline is that instant plus
5 seconds whatever the deadline of the caller's context, whether it is done depends on
the clock alone and not on the caller's context, the interrupt or `cancel`, and it is not
done at the instant `Shutdown` is called. -/
theorem Start.fresh_grace_period (srv : Server) (hd : Handler) (dl : Option Nat)
    (es : List Event) :
    let s := Start.run srv hd dl es
    shutdownHammer = 5 * second ∧
    (s.ctrl = .drain →
      (Start.next s .ctrl).ctrl = .inShutdown ∧ (Start.next s .ctrl).shutdownCalls = 1 ∧
      (Start.next s .ctrl).drainBegan = some s.now ∧
      (Start.next s .ctrl).ctxShutDown =
        some (.withTimeout .background (s.now + shutdownHammer))) ∧
    (6 ≤ s.ctrl.stage → s.polled = some .notReady → s.ctxShutDown ≠ none) ∧
    (∀ c, s.ctxShutDown = some c →
      ∃ t0, s.drainBegan = some t0 ∧ t0 ≤ s.now ∧ s.shutdownCalls = 1 ∧
        c = .withTimeout .background (t0 + shutdownHammer) ∧
        (∀ callerDeadline, c.deadline callerDeadline = some (t0 + 5 * second)) ∧
        (∀ g t, c.done g t = decide (t0 + 5 * second ≤ t)) ∧
        (∀ g, c.done g t0 = false)) := by
  intro s
  have hinv : Start.Inv s := Start.inv_run srv hd dl es
  have hham : shutdownHammer = 5 * second := by decide
  refine ⟨hham, ?_, ?_, ?_⟩
  · intro hc
    have h0 := (hinv.drain5 (by rw [hc]; simp [CtrlPC.stage])).1
    simp [Start.next, Start.step, Start.ctrlStep, hc, h0]
  · intro h6 hp
    obtain ⟨_, t, _, _, hctx⟩ := hinv.drain6 h6 hp
    rw [hctx]; simp
  · intro c hc
    have h6 : 6 ≤ s.ctrl.stage := by
      by_contra hlt
      have := (hinv.drain5 (by omega)).2.2
      rw [this] at hc; simp at hc
    have hp : s.polled = some .notReady := by
      rcases Nat.lt_or_ge s.ctrl.stage 8 with h7 | h8
      · exact hinv.polled5 (by omega) (by omega)
      · by_contra hne
        have h8' : s.ctrl.stage = 8 := le_antisymm (ctrlPC_stage_le _) h8
        have := (hinv.drainSkip (hinv.polled8 h8') hne).2.2.1
        rw [this] at hc; simp at hc
    obtain ⟨hcalls, t0, ht0, hbegan, hctx⟩ := hinv.drain6 h6 hp
    rw [hctx] at hc
    have hceq : c = .withTimeout .background (t0 + shutdownHammer) := by
      simpa using hc.symm
    refine ⟨t0, hbegan, ht0, hcalls, hceq, ?_, ?_, ?_⟩
    · intro cd; rw [hceq, hham]; simp [Context.deadline]
    · intro g t; rw [hceq, hham]; simp [Context.done]
    · intro g
      rw [hceq, hham]
      simp [Context.done, second, millisecond]

/-- An instance: an interrupt at 60 s under a caller's deadline of 61 s gives `Shutdown` a
context that expires at 65 s and is not done at 60 s, whatever has been cancelled. -/
theorem Start.fresh_grace_period_witness :
    (Start.run (New ":8080") 1 (some (61 * second)) interruptAfterAMinute).ctxShutDown =
      some (.withTimeout .background (65 * second)) ∧
    (Start.run (New ":8080") 1 (some (61 * second)) interruptAfterAMinute).drainBegan =
      some (60 * second) ∧
    (Context.withTimeout .background (65 * second)).deadline (some (61 * second)) =
      some (60 * second + 5 * second) ∧
    (Context.withTimeout .background (65 * second)).done
      { callerDeadline := some (61 * second), callerCancelled := true, interrupted := true,
        released := true } (60 * second) = false := by
  have hb : (Start.run (New ":8080") 1 (some (61 * second)) interruptAfterAMinute).drainBegan =
      some (60 * second) := by decide
  obtain ⟨t0, h0, -, -, -, hdl, -, hnd⟩ :=
    (Start.fresh_grace_period (New ":8080") 1 (some (61 * second))
      interruptAfterAMinute).2.2.2 (.withTimeout .background (65 * second)) (by decide)
  have ht : t0 = 60 * second := by
    rw [hb] at h0
    exact (Option.some.inj h0).symm
  subst ht
  exact ⟨by decide, hb, hdl _, hnd _⟩

/-- C8: `New(addr)` gives a server whose `Addr` is `addr` and whose `ReadHeaderTimeout` is
60 seconds; putting these two fields back to zero gives the zero value of `http.Server`,
so every other field, `Handler` included, is zero; equal addresses give equal servers;
and `New("myhost:2000")` is the value `TestNew` wants. -/
theorem New_spec (addr : String) :
    (New addr).srv.Addr = addr ∧
    (New addr).srv.ReadHeaderTimeout = 60 * second ∧
    60 * second = 60000000000 ∧
    (New addr).srv.Handler = none ∧
    { (New addr).srv with Addr := "", ReadHeaderTimeout := 0 } = HttpServer.zero ∧
    (∀ other, other = addr → New other = New addr) ∧
    New "myhost:2000" = testNewWant := by
  refine ⟨rfl, rfl, by decide, rfl, rfl, ?_, by decide⟩
  intro other h
  rw [h]

/-- An instance: the address of `TestNew`. -/
theorem New_spec_witness :
    (New "myhost:2000").srv.Addr = "myhost:2000" ∧ New "myhost:2000" = testNewWant :=
  ⟨(New_spec "myhost:2000").1, (New_spec "myhost:2000").2.2.2.2.2.2⟩

/-- C9: a value returned by `Start` is of exactly one of three kinds: `nil`; a listener
fault, which is the error of `ListenAndServe` wrapped with the message of line 46, found by
the poll, with `Shutdown` never called; or a drain error, which is the error of
`Shutdown` wrapped with the message of line 61.  The two messages differ, so no value is
of two kinds, and the value is `specOutcome` of what the poll found and what `Shutdown`
returned: two invocations that agree on these return the same value. -/
theorem Start.outcome_categories (srv : Server) (hd : Handler) (dl : Option Nat)
    (es : List Event) (x : Err) (hx : (Start.run srv hd dl es).result = some x) :
    (category x = .clean ∨ category x = .listenerFault ∨ category x = .drainError) ∧
    (category x = .clean ↔ x = none) ∧
    (category x = .listenerFault ↔
      ∃ e0, (Start.run srv hd dl es).listenRet = some (some e0) ∧
        e0.isServerClosed = false ∧ x = some (.wrap e0 abnormalMsg) ∧
        (Start.run srv hd dl es).polled = some (.value (.wrap e0 abnormalMsg)) ∧
        (Start.run srv hd dl es).shutdownCalls = 0 ∧
        (Start.run srv hd dl es).shutdownRet = none) ∧
    (category x = .drainError ↔
      ∃ se, (Start.run srv hd dl es).shutdownRet = some (some se) ∧
        x = some (.wrap se gracelessMsg) ∧
        (Start.run srv hd dl es).polled = some .notReady) ∧
    abnormalMsg ≠ gracelessMsg ∧
    (∃ obs, (Start.run srv hd dl es).polled = some obs ∧
      x = specOutcome obs (Start.run srv hd dl es).shutdownRet) ∧
    (∀ srv2 hd2 dl2 es2 y, (Start.run srv2 hd2 dl2 es2).result = some y →
      (Start.run srv2 hd2 dl2 es2).polled = (Start.run srv hd dl es).polled →
      (Start.run srv2 hd2 dl2 es2).shutdownRet = (Start.run srv hd dl es).shutdownRet →
      y = x) := by
  have hinv := Start.inv_run srv hd dl es
  have hne : ¬ gracelessMsg = abnormalMsg := fun h => abnormalMsg_ne_gracelessMsg h.symm
  have hdet : ∀ srv2 hd2 dl2 es2 y, (Start.run srv2 hd2 dl2 es2).result = some y →
      (Start.run srv2 hd2 dl2 es2).polled = (Start.run srv hd dl es).polled →
      (Start.run srv2 hd2 dl2 es2).shutdownRet = (Start.run srv hd dl es).shutdownRet →
      y = x := by
    intro srv2 hd2 dl2 es2 y hy hp hr
    obtain ⟨_, o1, ho1, hx1, _⟩ := Start.result_eq _ hinv x hx
    obtain ⟨_, o2, ho2, hy2, _⟩ := Start.result_eq _ (Start.inv_run srv2 hd2 dl2 es2) y hy
    rw [hp, ho1] at ho2
    have : o1 = o2 := by simpa using ho2
    subst this
    rw [hx1, hy2, hr]
  generalize Start.run srv hd dl es = s at *
  obtain ⟨_, obs, hobs, hres, hret⟩ := Start.result_eq s hinv x hx
  refine ⟨?_, ?_, ?_, ?_, abnormalMsg_ne_gracelessMsg, ⟨obs, hobs, hres⟩, hdet⟩
  all_goals
    cases obs with
    | value v =>
      obtain ⟨hs, _⟩ := hinv.bufValue v hobs
      have hskip := hinv.drainSkip (by rw [hobs]; simp) (by rw [hobs]; simp)
      have hrep : specReport s.listenRet = [v] := by
        rcases Start.sent_eq s hinv with h0 | h1
        · rw [h0] at hs; simp at hs
        · rw [← h1]; exact hs
      obtain ⟨e0, hl, hcl, hv⟩ := specReport_singleton _ _ hrep
      subst hv
      subst hres
      simp [specOutcome, category, hl, hcl, hobs, hskip.1, hskip.2.2.2,
        abnormalMsg_ne_gracelessMsg]
    | closedEmpty =>
      subst hres
      simp [specOutcome, category, hobs]
    | notReady =>
      cases hr : s.shutdownRet with
      | none => exact absurd hr (hret rfl)
      | some r0 =>
        cases r0 with
        | none => subst hres; simp [specOutcome, category, hr]
        | some se => subst hres; simp [specOutcome, category, hr, hne, hobs]

/-- An instance: a drain that runs into its deadline is a drain error. -/
theorem Start.outcome_categories_witness :
    (Start.run testServer 1 none (testUntilDrain ++
      [.tick (5 * second), .shutdownReturn (some .deadlineExceeded), .ctrl])).result =
      some (some (.wrap .deadlineExceeded gracelessMsg)) ∧
    category (some (.wrap .deadlineExceeded gracelessMsg)) = .drainError :=
  have h := Start.outcome_categories testServer 1 none (testUntilDrain ++
      [.tick (5 * second), .shutdownReturn (some .deadlineExceeded), .ctrl])
      (some (.wrap .deadlineExceeded gracelessMsg)) (by decide)
  ⟨by decide, h.2.2.2.1.mpr ⟨.deadlineExceeded, by decide, rfl, by decide⟩⟩

/-- C10: when the controller left line 50 with neither an interrupt nor the end of the
caller's context having happened, the serve task has finished and the channel is closed,
so the `select` of lines 51-55 takes the receive and never `default`: `Start` returns the
error that was sent, or `nil` when nothing was sent, and `Shutdown` is never called. -/
theorem Start.self_exit_skips_drain (srv : Server) (hd : Handler) (dl : Option Nat)
    (es : List Event) (hw : (Start.run srv hd dl es).wokenByExit = true) :
    (Start.run srv hd dl es).serve.finished = true ∧
    (Start.run srv hd dl es).errChan.closed = true ∧
    (Start.run srv hd dl es).polled ≠ some .notReady ∧
    (Start.run srv hd dl es).shutdownCalls = 0 ∧
    ((Start.run srv hd dl es).ctrl = .poll →
      (Start.run srv hd dl es).errChan.poll.1 ≠ .notReady ∧
      (Start.next (Start.run srv hd dl es) .ctrl).ctrl = .returned ∧
      (Start.next (Start.run srv hd dl es) .ctrl).result =
        some (Start.run srv hd dl es).sent.head?) ∧
    (∀ x, (Start.run srv hd dl es).result = some x →
      x = (Start.run srv hd dl es).sent.head? ∧
      ((Start.run srv hd dl es).listenRet = some (some .errServerClosed) → x = none)) := by
  have hinv := Start.inv_run srv hd dl es
  generalize Start.run srv hd dl es = s at *
  obtain ⟨h8, hnr⟩ := hinv.woken hw
  obtain ⟨hcl, _⟩ := hinv.closed7 (by omega)
  have hcalls : s.shutdownCalls = 0 := by
    cases hp : s.polled with
    | none =>
      have h4 : s.ctrl.stage ≤ 4 := by
        by_contra hlt
        rcases Nat.lt_or_ge s.ctrl.stage 8 with h7 | h8c
        · have := hinv.polled5 (by omega) (by omega)
          rw [hp] at this; simp at this
        · have h8' : s.ctrl.stage = 8 := le_antisymm (ctrlPC_stage_le _) h8c
          exact hinv.polled8 h8' hp
      exact (hinv.drain5 (by omega)).1
    | some obs =>
      exact (hinv.drainSkip (by rw [hp]; simp) (by rw [hp]; exact hnr ∘ (hp ▸ ·))).1
  refine ⟨by simp [ServePC.finished, h8], hcl, hnr, hcalls, ?_, ?_⟩
  · intro hc
    have hp : s.polled = none := hinv.polled4 (by rw [hc]; simp [CtrlPC.stage])
    have hbuf := hinv.bufNone hp
    cases hs : s.sent with
    | nil =>
      rw [hs] at hbuf
      simp [Start.next, Start.step, Start.ctrlStep, hc, Chan.poll, hbuf, hcl,
        PollObs.received]
    | cons v l =>
      rw [hs] at hbuf
      simp [Start.next, Start.step, Start.ctrlStep, hc, Chan.poll, hbuf, PollObs.received]
  · intro x hx
    obtain ⟨_, obs, hobs, hres, _⟩ := Start.result_eq s hinv x hx
    have hxs : x = s.sent.head? := by
      cases obs with
      | value v =>
        rw [(hinv.bufValue v hobs).1, hres]; rfl
      | closedEmpty =>
        rw [(hinv.bufClosed hobs).1, hres]; rfl
      | notReady => exact absurd hobs hnr
    refine ⟨hxs, ?_⟩
    intro hl
    rcases Start.sent_eq s hinv with h0 | h1
    · rw [hxs, h0]; rfl
    · rw [hxs, h1, hl]; rfl

/-- An instance: the server stops by itself, the poll finds the channel closed and `Start`
returns `nil` without a call of `Shutdown`. -/
theorem Start.self_exit_skips_drain_witness :
    (Start.run (New ":8080") 1 none selfExit).wokenByExit = true ∧
    (Start.run (New ":8080") 1 none selfExit).ctrl = .poll ∧
    (Start.next (Start.run (New ":8080") 1 none selfExit) .ctrl).ctrl = .returned ∧
    (Start.next (Start.run (New ":8080") 1 none selfExit) .ctrl).result =
      some (Start.run (New ":8080") 1 none selfExit).sent.head? ∧
    (Start.run (New ":8080") 1 none selfExit).shutdownCalls = 0 :=
  have h := Start.self_exit_skips_drain (New ":8080") 1 none selfExit (by decide)
  ⟨by decide, by decide, (h.2.2.2.2.1 (by decide)).2.1, (h.2.2.2.2.1 (by decide)).2.2,
    h.2.2.2.1⟩

end ServerPkg

